import Mathlib

/-!
Shallow embedding of the Back-End inventory-intelligence service
(FastAPI/SQLAlchemy, Python) and proofs about its specification claims.

Conventions used throughout:
* Dates are modelled as integers (a day number); `d - 1` is the previous day.
* Python `int` columns are `Int`; money (`Decimal`/`float`) is `Rat`.
* Database tables are lists of row structures; SQL queries become list
  filters / folds over those lists.
* Python `dict` objects are association lists with `dict`-style update
  (overwrite in place when the key is present, append otherwise).
* Fallible code returns `Except` / `Option`.
-/

/-! ## Generic Python-dict model (used by `get_config.py` and the routers) -/

/-- Python `d[k] = v` on an (insertion-ordered) dict modelled as an
association list: overwrite every entry holding `k`, append otherwise.
Dicts built from `[]` through this function have pairwise-distinct keys,
so "every entry" is at most one entry. -/
def dictSet {α : Type} (d : List (String × α)) (k : String) (v : α) :
    List (String × α) :=
  if d.any (fun p => p.1 == k) then
    d.map (fun p => if p.1 == k then (p.1, v) else p)
  else
    d ++ [(k, v)]

/-- Python `d.update(other)`: set every key of `other`, in order. -/
def dictUpdate {α : Type} (d other : List (String × α)) : List (String × α) :=
  other.foldl (fun acc p => dictSet acc p.1 p.2) d

/-- Python `d.get(k)` / `d[k]` lookup: first entry with the key. -/
def dictGet {α : Type} (d : List (String × α)) (k : String) : Option α :=
  (d.find? (fun p => p.1 == k)).map (fun p => p.2)

/-! ## models/main_db.py — platform `User` rows (the columns the auth
router reads and writes) -/

structure User where
  email : String
  hashed_password : String
  is_active : Bool
deriving Repr, DecidableEq

/-! ## crud/user_crud.py -/

/-- `get_user_by_email` (src/crud/user_crud.py): first `User` row whose
`email` column equals the argument. -/
def get_user_by_email (db : List User) (email : String) : Option User :=
  db.find? (fun u => u.email == email)

/-- `update_password` (src/crud/user_crud.py lines 111-116): store an
already-hashed value on the user row. -/
def update_password (db : List User) (user : User) (new_password_hashed : String) :
    List User :=
  db.map (fun u => if u.email == user.email
                   then { u with hashed_password := new_password_hashed }
                   else u)

/-- The names of the functions defined at module level in
src/crud/user_crud.py. A Python attribute access `user_crud.f` succeeds
exactly when `f` is in this namespace; otherwise it raises
`AttributeError`. -/
def user_crud_module_functions : List String :=
  ["get_user", "get_user_by_email", "get_users", "create_user",
   "delete_user", "update_user_profile", "get_company_by_rut",
   "update_password", "update_user"]

/-! ## routers/auth_router.py -/

/-- Outcome of an endpoint call: an HTTP error response, an uncaught
Python exception (FastAPI turns it into a 500), or a success value. -/
inductive ApiOutcome (α : Type) where
  | httpError (statusCode : Nat) (detail : String) : ApiOutcome α
  | pythonError (message : String) : ApiOutcome α
  | ok (value : α) : ApiOutcome α
deriving Repr, DecidableEq

/-- `request_password_reset` (src/routers/auth_router.py lines 165-178,
POST /auth/password-reset-request). Returns the response message together
with whether a reset-email background task was scheduled. -/
def request_password_reset (db : List User) (email : String) :
    String × Bool :=
  match get_user_by_email db email with
  | none => ("If an account with that email exists, a password reset link has been sent.", false)
  | some _ => ("If an account with that email exists, a password reset link has been sent.", true)

/-- `reset_password` (src/routers/auth_router.py lines 181-194,
POST /auth/password-reset). `verify` abstracts
`verify_password_reset_token` (JWT decode: `some email` for a valid,
unexpired token with the `password_reset` audience, `none` otherwise).
The endpoint ends with `user_crud.change_password(...)`: the attribute
lookup on the module namespace precedes any call, so a missing name
raises `AttributeError` there. On success the endpoint would return the
new row list and the literal success message. -/
def reset_password (verify : String → Option String) (db : List User)
    (token new_password : String) : ApiOutcome (List User × String) :=
  match verify token with
  | none => .httpError 400 "Invalid or expired token"
  | some email =>
    match get_user_by_email db email with
    | none => .httpError 404 "User not found"
    | some user =>
      if !user.is_active then .httpError 400 "Inactive user"
      else if user_crud_module_functions.contains "change_password" then
        -- unreachable: src/crud/user_crud.py defines no `change_password`
        .ok (update_password db user new_password, "Password updated successfully")
      else
        .pythonError "AttributeError: module user_crud has no attribute change_password"

/-! ## utils/calculate_alerts_days.py and the copy in
routers/metrics_router.py.

`alerts d = true` models "a `MetricAlert` row exists for this exact
(product, warehouse, metric) key on day `d`" — the `db.query(...).first()`
existence test inside the loop. -/

/-- The backward scan shared by both copies: check days
`end_date, end_date - 1, ...` while fuel lasts, counting until the first
day with no alert. -/
def consecutive_scan (alerts : Int → Bool) (end_date : Int) : Nat → Nat
  | 0 => 0
  | fuel + 1 =>
    if alerts end_date then 1 + consecutive_scan alerts (end_date - 1) fuel
    else 0

namespace CalculateAlertsDays

/-- `get_consecutive_alert_days` (src/utils/calculate_alerts_days.py
lines 6-34): `for i in range(max_lookback_days + 1)` scans
`max_lookback_days + 1` days backward from `end_date`, breaking at the
first day without an alert row. The Python default is
`max_lookback_days: int = 90`. -/
def get_consecutive_alert_days (alerts : Int → Bool) (end_date : Int)
    (max_lookback_days : Nat := 90) : Nat :=
  consecutive_scan alerts end_date (max_lookback_days + 1)

end CalculateAlertsDays

namespace MetricsRouter

/-- `get_consecutive_alert_days` (src/routers/metrics_router.py lines
31-61): the same loop, with Python default `max_lookback_days: int = 30`. -/
def get_consecutive_alert_days (alerts : Int → Bool) (end_date : Int)
    (max_lookback_days : Nat := 30) : Nat :=
  consecutive_scan alerts end_date (max_lookback_days + 1)

end MetricsRouter

/-! ## models/tenant_db.py — metric names, and
services/get_config.py — the effective-configuration resolver. -/

inductive MetricName where
  | stock_cero | baja_rotacion | stock_critico | sobre_stock
  | recomendacion_compra | devoluciones | ajuste | venta_sin_stock
deriving Repr, DecidableEq

/-- One `MetricConfiguration` row (models/tenant_db.py): company-global
when `warehouse_id` is `none`, warehouse-specific otherwise; `config_json`
is a JSON object of integer parameters. -/
structure MetricConfiguration where
  metric_name : MetricName
  warehouse_id : Option Int
  is_active : Bool
  config_json : List (String × Int)
deriving Repr, DecidableEq

/-- The `tenant_db.query(MetricConfiguration.config_json).filter(...)
.scalar()` calls in src/services/get_config.py: the `config_json` of the
first active row for this metric with exactly this `warehouse_id`
(`== None` means SQL `IS NULL`). -/
def query_config_json (rows : List MetricConfiguration)
    (metric : MetricName) (warehouse_id : Option Int) :
    Option (List (String × Int)) :=
  ((rows.filter (fun r =>
      r.metric_name == metric && r.warehouse_id == warehouse_id &&
      r.is_active)).head?).map (fun r => r.config_json)

/-- The hardcoded per-metric defaults of `get_effective_metric_config`
(src/services/get_config.py lines 15-23). -/
def hardcoded_defaults : MetricName → List (String × Int)
  | .stock_critico =>
      [("days_for_avg", 30), ("coverage_days_threshold", 3), ("stock_qty_threshold", 3)]
  | .sobre_stock =>
      [("days_for_avg", 30), ("coverage_days_threshold", 30)]
  | .baja_rotacion =>
      [("days_since_last_sale", 14)]
  | .recomendacion_compra =>
      [("sales_days_for_recommendation", 15)]
  | _ => []

/-- `get_effective_metric_config` (src/services/get_config.py lines 6-47):
start from the hardcoded defaults, `update` with the active company-global
row's JSON when that is truthy (non-`None`, non-empty), then — only when a
`warehouse_id` was passed — `update` with the active warehouse-specific
row's JSON when truthy. -/
def get_effective_metric_config (rows : List MetricConfiguration)
    (metric_name_enum : MetricName) (warehouse_id : Option Int) :
    List (String × Int) :=
  let effective_config := hardcoded_defaults metric_name_enum
  let effective_config :=
    match query_config_json rows metric_name_enum none with
    | some g => if g.isEmpty then effective_config else dictUpdate effective_config g
    | none => effective_config
  match warehouse_id with
  | none => effective_config
  | some wid =>
    match query_config_json rows metric_name_enum (some wid) with
    | some w => if w.isEmpty then effective_config else dictUpdate effective_config w
    | none => effective_config

/-! ## models/tenant_db.py — movement types, transaction lines,
daily stock snapshots. -/

inductive MovementType where
  | venta | reservado | recepcion | devolucion
  | ajuste | stock_inicial | traslado_entrada | traslado_salida
deriving Repr, DecidableEq

/-- One `TransactionDetail` line as replayed by the snapshot engine
(only the columns it reads). -/
structure TransactionDetail where
  movement_type : MovementType
  quantity : Int
deriving Repr, DecidableEq

/-- One `DailyStockSnapshot` row (models/tenant_db.py lines 88-123),
restricted to one (product, warehouse) pair, so keyed by date alone. -/
structure DailyStockSnapshot where
  snapshot_date : Int
  opening_physical_stock : Int
  opening_reserved_stock : Int
  quantity_sold : Int
  quantity_returned : Int
  quantity_purchased : Int
  quantity_adjusted : Int
  quantity_transfer_in : Int
  quantity_transfer_out : Int
  quantity_newly_reserved : Int
  quantity_released_from_reservation : Int
  closing_physical_stock : Int
  closing_reserved_stock : Int
  closing_available_stock : Int
deriving Repr, DecidableEq

/-! ## services/snapshot_service.py — `recalculate_stock_snapshots`
(lines 237-390), for one fixed (product, warehouse) pair. The inner loops
over products and warehouses touch disjoint rows and read only their own
pair's history, so one pair is modelled without loss. -/

/-- The running intra-day state of the replay loop: the two stock
counters plus the `daily_totals` defaultdict. -/
structure IntraDayState where
  current_physical_stock : Int
  current_reserved_stock : Int
  sold : Int := 0
  released_from_reservation : Int := 0
  newly_reserved : Int := 0
  returned : Int := 0
  purchased : Int := 0
  transfer_in : Int := 0
  transfer_out : Int := 0
  adjusted : Int := 0
deriving Repr, DecidableEq

/-- One iteration of `for detail in ordered_daily_transactions`
(src/services/snapshot_service.py lines 304-341). -/
def process_transaction_detail (s : IntraDayState) (detail : TransactionDetail) :
    IntraDayState :=
  match detail.movement_type with
  | .venta =>
    let s := { s with current_physical_stock := s.current_physical_stock - detail.quantity,
                      sold := s.sold + detail.quantity }
    if s.current_reserved_stock ≥ detail.quantity then
      { s with current_reserved_stock := s.current_reserved_stock - detail.quantity,
               released_from_reservation := s.released_from_reservation + detail.quantity }
    else
      { s with released_from_reservation := s.released_from_reservation + s.current_reserved_stock,
               current_reserved_stock := 0 }
  | .reservado =>
    { s with current_reserved_stock := s.current_reserved_stock + detail.quantity,
             newly_reserved := s.newly_reserved + detail.quantity }
  | .devolucion =>
    { s with current_physical_stock := s.current_physical_stock + detail.quantity,
             returned := s.returned + detail.quantity }
  | .recepcion =>
    { s with current_physical_stock := s.current_physical_stock + detail.quantity,
             purchased := s.purchased + detail.quantity }
  | .traslado_entrada =>
    { s with current_physical_stock := s.current_physical_stock + detail.quantity,
             transfer_in := s.transfer_in + detail.quantity }
  | .traslado_salida =>
    { s with current_physical_stock := s.current_physical_stock - detail.quantity,
             transfer_out := s.transfer_out + detail.quantity }
  | .ajuste | .stock_inicial =>
    -- target_stock = detail.quantity; delta versus the stock before this line
    { s with adjusted := s.adjusted + (detail.quantity - s.current_physical_stock),
             current_physical_stock := detail.quantity }

/-- Replay one day's ordered transaction lines from the opening stocks
(lines 297-341). -/
def replay_day (ordered_daily_transactions : List TransactionDetail)
    (opening_physical opening_reserved : Int) : IntraDayState :=
  ordered_daily_transactions.foldl process_transaction_detail
    { current_physical_stock := opening_physical,
      current_reserved_stock := opening_reserved }

/-- The `snapshot_data` dict built for the UPSERT (lines 343-362). -/
def build_snapshot_data (current_processing_date : Int)
    (opening_physical opening_reserved : Int)
    (ordered_daily_transactions : List TransactionDetail) : DailyStockSnapshot :=
  let s := replay_day ordered_daily_transactions opening_physical opening_reserved
  { snapshot_date := current_processing_date,
    opening_physical_stock := opening_physical,
    opening_reserved_stock := opening_reserved,
    quantity_sold := s.sold,
    quantity_returned := s.returned,
    quantity_purchased := s.purchased,
    quantity_adjusted := s.adjusted,
    quantity_transfer_in := s.transfer_in,
    quantity_transfer_out := s.transfer_out,
    quantity_newly_reserved := s.newly_reserved,
    quantity_released_from_reservation := s.released_from_reservation,
    closing_physical_stock := s.current_physical_stock,
    closing_reserved_stock := s.current_reserved_stock,
    closing_available_stock := s.current_physical_stock - s.current_reserved_stock }

/-- The snapshot table for one (product, warehouse) pair: at most one row
per date (`_snapshot_uc` unique constraint). -/
def SnapshotTable : Type := Int → Option DailyStockSnapshot

/-- The `ON CONFLICT ... DO UPDATE` upsert keyed by date (lines 364-369):
overwrite the row for that date, keep every other date. -/
def upsert_snapshot (table : SnapshotTable) (snap : DailyStockSnapshot) :
    SnapshotTable :=
  fun d => if d = snap.snapshot_date then some snap else table d

/-- Lines 270-287: the opening stocks for a day are the previous day's
closing stocks, `or 0` field-wise, and 0 when no previous-day row exists. -/
def opening_from_previous (prev : Option DailyStockSnapshot) : Int × Int :=
  match prev with
  | none => (0, 0)
  | some p => (p.closing_physical_stock, p.closing_reserved_stock)

/-- Compute and upsert one day's snapshot against the current table state
(the body of the per-day loop for one pair, lines 270-369). `txsOn d` is
the time-ordered list of this pair's transaction lines dated `d`. -/
def process_one_day (txsOn : Int → List TransactionDetail)
    (table : SnapshotTable) (current_processing_date : Int) : SnapshotTable :=
  let opening := opening_from_previous (table (current_processing_date - 1))
  upsert_snapshot table
    (build_snapshot_data current_processing_date opening.1 opening.2
      (txsOn current_processing_date))

/-- `n` iterations of the `while current_processing_date <= today` loop
starting at `start_date`: days `start_date, start_date+1, ...` in strict
chronological order. -/
def recalculate_days (txsOn : Int → List TransactionDetail)
    (table : SnapshotTable) (start_date : Int) : Nat → SnapshotTable
  | 0 => table
  | n + 1 =>
    process_one_day txsOn (recalculate_days txsOn table start_date n)
      (start_date + n)

/-- `recalculate_stock_snapshots` (lines 237-390) for one
(product, warehouse) pair: recompute every day from `start_date` through
`today` inclusive (no iteration when `start_date > today`). -/
def recalculate_stock_snapshots (txsOn : Int → List TransactionDetail)
    (table : SnapshotTable) (start_date today : Int) : SnapshotTable :=
  recalculate_days txsOn table start_date (today + 1 - start_date).toNat

/-! ## services/snapshot_service.py — the RECOMENDACIÓN DE COMPRA section
of `evaluate_and_log_metrics_for_snapshot` (lines 173-205).

`quantity_sold_on d` models the per-day `quantity_sold` sum the SQL query
reads for this (product, warehouse) pair (0 where no snapshot row exists,
matching `.scalar() or 0`). -/

/-- `total_sold_lookback` (lines 175-181): sum of `quantity_sold` over
`snapshot_date BETWEEN snap_date - (n - 1) AND snap_date`, i.e. the `n`
days ending at (and including) the snapshot day; an empty window sums
to 0. -/
def total_sold_lookback (quantity_sold_on : Int → Int) (snap_date n : Int) : Int :=
  (List.range n.toNat).foldl (fun acc (i : Nat) => acc + quantity_sold_on (snap_date - (i : Int))) 0

/-- Lines 183-205: the two sequential `if` statements that write a
`recomendacion_compra` alert; the result lists the
`metric_value_numeric` of each alert written (`units_to_buy`, with
`int(available_stock)` = `available_stock` on integer snapshot columns). -/
def recompra_alert_writes (company_id : Int) (available_stock : Int)
    (total_sold : Int) : List Int :=
  (if available_stock > 0 ∧ total_sold > 0 ∧ available_stock < total_sold ∧
      company_id = 47
   then [total_sold - available_stock] else []) ++
  (if available_stock < total_sold ∧ company_id ≠ 47
   then [total_sold - available_stock] else [])

/-- The whole section for one snapshot: compute the lookback sum with the
configured `sales_days_for_recommendation`, then run both alert `if`s. -/
def evaluate_recomendacion_compra (quantity_sold_on : Int → Int)
    (snap_date : Int) (closing_available_stock : Int) (company_id : Int)
    (sales_days_for_recommendation : Int) : List Int :=
  recompra_alert_writes company_id closing_available_stock
    (total_sold_lookback quantity_sold_on snap_date sales_days_for_recommendation)

/-! ## routers/metrics_router.py — `get_company_metrics_report`
(lines 75-228): aggregation of pre-generated daily reports over a date
range. Only the fields the aggregation reads are modelled. -/

/-- One point of a report's `overview.data` list. -/
structure OverviewDataPoint where
  date : Int
  net : Rat
  deviation : Rat
deriving Repr, DecidableEq

/-- One entry of a report's `counters` list (`CounterItem`,
src/schemas/metric_schemas.py lines 44-52): `amount` and `price` are
Optional in the schema. -/
structure CounterItem where
  name : String
  quantity : Int
  amount : Option Int
  price : Option Rat
deriving Repr, DecidableEq

/-- One `GeneratedMetricReport` row as read by the endpoint:
`report_date` plus the parts of `report_data` the aggregation uses. -/
structure GeneratedMetricReport where
  report_date : Int
  overview_data : List OverviewDataPoint
  counters : List CounterItem
deriving Repr, DecidableEq

/-- Lines 113-120: filter the table to the requested range and read it
`ORDER BY report_date` (a stable sort on the report date). -/
def query_daily_reports (table : List GeneratedMetricReport)
    (dateInit dateEnd : Int) : List GeneratedMetricReport :=
  List.insertionSort (fun a b => a.report_date ≤ b.report_date)
    (table.filter (fun r => dateInit ≤ r.report_date && r.report_date ≤ dateEnd))

/-- Lines 190-197: merge one day's counter entry into the
`aggregated_counters` dict (keyed by `name`): first occurrence is stored
as-is, later ones add `quantity` and add `amount`/`price` with `or 0` /
`or 0.0` on both sides. -/
def merge_counter (aggregated : List CounterItem) (entry : CounterItem) :
    List CounterItem :=
  if aggregated.any (fun c => c.name == entry.name) then
    aggregated.map (fun c =>
      if c.name == entry.name then
        { c with quantity := c.quantity + entry.quantity,
                 amount := some (c.amount.getD 0 + entry.amount.getD 0),
                 price := some (c.price.getD 0 + entry.price.getD 0) }
      else c)
  else aggregated ++ [entry]

/-- Lines 170-197 (the parts claimed): fold the per-day reports in query
order, extending `aggregated_overview_points` and merging counters. -/
def aggregate_daily_reports (daily_reports : List GeneratedMetricReport) :
    List OverviewDataPoint × List CounterItem :=
  daily_reports.foldl
    (fun acc r => (acc.1 ++ r.overview_data, r.counters.foldl merge_counter acc.2))
    ([], [])

/-- The endpoint's read-and-aggregate pipeline for a date range. -/
def get_company_metrics_report (table : List GeneratedMetricReport)
    (dateInit dateEnd : Int) : List OverviewDataPoint × List CounterItem :=
  aggregate_daily_reports (query_daily_reports table dateInit dateEnd)

/-- Python `aggregated_counters[name]` lookup on the dict modelled as a
list with unique names: the first entry with that name. -/
def find_counter (counters : List CounterItem) (name : String) :
    Option CounterItem :=
  counters.find? (fun c => c.name == name)

/-! ## routers/transaction_router.py — `_process_bulk_transactions_task`
(lines 33-128, up to the single `commit`). Post-processing (snapshot
recalculation, report regeneration) touches other tables only. -/

/-- One validated `TransactionItemPayload`
(src/schemas/transaction_schemas.py lines 9-18). `tipo` is the already
validated movement-type literal, so `MovementType(item.tipo.lower())`
is total; `costo` is Optional and may be absent. -/
structure PayloadItem where
  sucursal : String
  transaccion : String
  sku : String
  descripcion : String
  tipo : MovementType
  categoria : Option String
  cantidad : Int
  costo : Option Rat
  fecha_movimiento : Int
deriving Repr, DecidableEq

/-- A tenant `Warehouse` row (the columns the task uses). -/
structure Warehouse where
  id : Int
  name : String
deriving Repr, DecidableEq

/-- A tenant `Product` row (the columns the task uses). -/
structure Product where
  id : Int
  code : String
  name : String
  category : Option String
  cost : Rat
deriving Repr, DecidableEq

/-- A tenant `Transaction` row (the columns the task sets/reads). -/
structure TransactionRow where
  id : Int
  reference_code : String
  transaction_date : Int
  warehouse_id : Int
deriving Repr, DecidableEq

/-- A tenant `TransactionDetail` row as created by the task. -/
structure TransactionDetailRow where
  transaction_id : Int
  product_id : Int
  quantity : Int
  unit_cost : Rat
  movement_type : MovementType
deriving Repr, DecidableEq

/-- The task's uncommitted session state: the four row lists plus the
in-memory caches built at lines 55-60, and the id sequences `flush`
draws fresh ids from. -/
structure BulkState where
  warehouses : List Warehouse
  products : List Product
  transactions : List TransactionRow
  details : List TransactionDetailRow
  warehouses_cache : List (String × Warehouse)
  products_cache : List (String × Product)
  existing_transactions_cache : List (String × Int)
  next_warehouse_id : Int
  next_product_id : Int
  next_transaction_id : Int
deriving Repr, DecidableEq

/-- A Python dict comprehension `{key(x): x for x in rows}`: later rows
overwrite earlier ones on a key collision. -/
def build_cache {α : Type} (key : α → String) (rows : List α) :
    List (String × α) :=
  rows.foldl (fun acc r => dictSet acc (key r) r) []

/-- Lines 51-60: open the tenant session and pre-load the caches. -/
def init_bulk_state (warehouses : List Warehouse) (products : List Product)
    (transactions : List TransactionRow) (details : List TransactionDetailRow)
    (next_warehouse_id next_product_id next_transaction_id : Int) : BulkState :=
  { warehouses := warehouses
    products := products
    transactions := transactions
    details := details
    warehouses_cache := build_cache (fun w => w.name.toLower) warehouses
    products_cache := build_cache (fun p => p.code) products
    existing_transactions_cache :=
      transactions.map (fun t => (t.reference_code, t.warehouse_id))
    next_warehouse_id := next_warehouse_id
    next_product_id := next_product_id
    next_transaction_id := next_transaction_id }

/-- Lines 62-67: `grouped_transactions` — a defaultdict keyed by
`(item.sucursal.lower(), item.transaccion)`, keys in first-appearance
order, items appended in payload order. -/
def grouped_transactions (payload : List PayloadItem) :
    List ((String × String) × List PayloadItem) :=
  payload.foldl
    (fun acc item =>
      let key := (item.sucursal.toLower, item.transaccion)
      if acc.any (fun g => g.1 == key) then
        acc.map (fun g => if g.1 == key then (g.1, g.2 ++ [item]) else g)
      else acc ++ [(key, [item])])
    []

/-- Lines 74-85: look the warehouse up in the cache by lowered name, and
create + flush + cache a new row (named after the group's first item's
original spelling) when absent. -/
def get_or_create_warehouse (st : BulkState) (sucursal_lower : String)
    (original_name : String) : BulkState × Warehouse :=
  match dictGet st.warehouses_cache sucursal_lower with
  | some w => (st, w)
  | none =>
    let w : Warehouse := { id := st.next_warehouse_id, name := original_name }
    ({ st with warehouses := st.warehouses ++ [w],
               warehouses_cache := dictSet st.warehouses_cache sucursal_lower w,
               next_warehouse_id := st.next_warehouse_id + 1 }, w)

/-- Lines 103-115: look the product up by SKU, creating it when absent
with `cost = Decimal(item.costo) / Decimal(item.cantidad) if
item.cantidad > 0 else Decimal(0)`. When `item.cantidad > 0` and
`item.costo` is absent, `Decimal(None)` raises `TypeError` and the task
aborts. -/
def get_or_create_product (st : BulkState) (item : PayloadItem) :
    Except String (BulkState × Product) :=
  match dictGet st.products_cache item.sku with
  | some p => .ok (st, p)
  | none =>
    if 0 < item.cantidad then
      match item.costo with
      | none => .error "TypeError: conversion from NoneType to Decimal is not supported"
      | some costo =>
        let p : Product := { id := st.next_product_id, code := item.sku,
                             name := item.descripcion, category := item.categoria,
                             cost := costo / (item.cantidad : Rat) }
        .ok ({ st with products := st.products ++ [p],
                       products_cache := dictSet st.products_cache item.sku p,
                       next_product_id := st.next_product_id + 1 }, p)
    else
      let p : Product := { id := st.next_product_id, code := item.sku,
                           name := item.descripcion, category := item.categoria,
                           cost := 0 }
      .ok ({ st with products := st.products ++ [p],
                     products_cache := dictSet st.products_cache item.sku p,
                     next_product_id := st.next_product_id + 1 }, p)

/-- The detail row built for one item (lines 117-125): the enclosing
transaction's id, the resolved product's id and cost, and the item's
quantity and movement type. -/
def mk_detail (txid : Int) (p : Product) (item : PayloadItem) : TransactionDetailRow :=
  { transaction_id := txid, product_id := p.id,
    quantity := item.cantidad, unit_cost := p.cost,
    movement_type := item.tipo }

/-- Lines 72-126: process one group. Also records the keys of groups
skipped by the existing-(reference_code, warehouse_id) check (the code
logs these with "Omitiendo transacción ya existente"). -/
def process_group (acc : BulkState × List (String × String))
    (group : (String × String) × List PayloadItem) :
    Except String (BulkState × List (String × String)) :=
  let st := acc.1
  let skipped := acc.2
  let sucursal_lower := group.1.1
  let ref_code := group.1.2
  match group.2 with
  | [] => .ok (st, skipped)  -- unreachable: `grouped_transactions` builds only nonempty groups
  | first_item :: _ =>
    let wr := get_or_create_warehouse st sucursal_lower first_item.sucursal
    let st := wr.1
    let warehouse := wr.2
    if st.existing_transactions_cache.contains (ref_code, warehouse.id) then
      .ok (st, skipped ++ [(sucursal_lower, ref_code)])
    else
      let tx : TransactionRow := { id := st.next_transaction_id,
                                   reference_code := ref_code,
                                   transaction_date := first_item.fecha_movimiento,
                                   warehouse_id := warehouse.id }
      let st := { st with transactions := st.transactions ++ [tx],
                          next_transaction_id := st.next_transaction_id + 1 }
      do
        let st ← group.2.foldlM
          (fun st item => do
            let pr ← get_or_create_product st item
            pure { pr.1 with details := pr.1.details ++ [mk_detail tx.id pr.2 item] })
          st
        pure (st, skipped)

/-- Lines 62-128: group the payload and process every group in order;
an exception anywhere aborts the whole loop. -/
def process_bulk_transactions_task (st : BulkState)
    (payload : List PayloadItem) :
    Except String (BulkState × List (String × String)) :=
  (grouped_transactions payload).foldlM process_group (st, [])

/-- Lines 128 and 175-188: the single `commit` on success, and the broad
`except` + `rollback` that discards every uncommitted row on failure. -/
def run_bulk_task (st : BulkState) (payload : List PayloadItem) :
    BulkState × List (String × String) :=
  match process_bulk_transactions_task st payload with
  | .ok r => r
  | .error _ => (st, [])

/-! # Theorems -/

/-- C9: POST /auth/password-reset-request returns the same success
response body whether or not a user with the requested email exists —
for any two databases and emails the response text coincides (and equals
the fixed message) — while the background email side effect fires exactly
when the user exists. -/
theorem request_password_reset_no_existence_leak :
    ∀ (db₁ db₂ : List User) (email₁ email₂ : String),
      (request_password_reset db₁ email₁).1 = (request_password_reset db₂ email₂).1 ∧
      (request_password_reset db₁ email₁).2 = (get_user_by_email db₁ email₁).isSome := by
  intro db₁ db₂ email₁ email₂
  constructor
  · unfold request_password_reset
    cases get_user_by_email db₁ email₁ <;> cases get_user_by_email db₂ email₂ <;> rfl
  · unfold request_password_reset
    cases get_user_by_email db₁ email₁ <;> rfl

/-- C1 (code bug): for every valid, unexpired reset token whose subject
email belongs to an existing active user, POST /auth/password-reset does
NOT update the stored password: `reset_password` calls
`user_crud.change_password`, a name src/crud/user_crud.py never defines
(it defines `update_password`), so the request dies with an
`AttributeError` before any write. -/
theorem reset_password_raises_attribute_error
    (verify : String → Option String) (db : List User)
    (token new_password email : String) (user : User)
    (hverify : verify token = some email)
    (hfind : get_user_by_email db email = some user)
    (hactive : user.is_active = true) :
    reset_password verify db token new_password =
      .pythonError "AttributeError: module user_crud has no attribute change_password" := by
  simp [reset_password, hverify, hfind, hactive, user_crud_module_functions]

/-- Witness for C1 at a concrete token map, database and request. -/
theorem reset_password_raises_attribute_error_witness :
    reset_password (fun t => if t == "tok" then some "a@x" else none)
      [{ email := "a@x", hashed_password := "oldhash", is_active := true }]
      "tok" "newpw" =
      .pythonError "AttributeError: module user_crud has no attribute change_password" :=
  reset_password_raises_attribute_error _ _ _ _ "a@x"
    { email := "a@x", hashed_password := "oldhash", is_active := true }
    (by decide) (by decide) rfl

/-- C3: replaying an `ajuste` or `stock_inicial` line treats the quantity
as an absolute target: physical stock is set to exactly the quantity and
the adjustment total grows by (quantity − physical stock before the
line); with opening physical 20 and a single `ajuste` line of quantity
15, the day's adjustment total is −5 and closing physical stock is 15. -/
theorem ajuste_absolute_target_semantics :
    (∀ (s : IntraDayState) (q : Int),
      process_transaction_detail s { movement_type := .ajuste, quantity := q } =
        { s with current_physical_stock := q,
                 adjusted := s.adjusted + (q - s.current_physical_stock) }) ∧
    (∀ (s : IntraDayState) (q : Int),
      process_transaction_detail s { movement_type := .stock_inicial, quantity := q } =
        { s with current_physical_stock := q,
                 adjusted := s.adjusted + (q - s.current_physical_stock) }) ∧
    (build_snapshot_data 0 20 0 [{ movement_type := .ajuste, quantity := 15 }]).quantity_adjusted = -5 ∧
    (build_snapshot_data 0 20 0 [{ movement_type := .ajuste, quantity := 15 }]).closing_physical_stock = 15 := by
  refine ⟨fun s q => rfl, fun s q => rfl, by decide, by decide⟩

/-- C4: replaying a `venta` line of quantity q with current reserved
stock r decreases physical stock by q and reserved stock by min(q, r),
recording min(q, r) as released-from-reservation; with opening reserved 5
and a single sale of 8, closing reserved is 0 and released is 5. -/
theorem venta_reserved_drawdown_semantics :
    (∀ (s : IntraDayState) (q : Int),
      process_transaction_detail s { movement_type := .venta, quantity := q } =
        { s with current_physical_stock := s.current_physical_stock - q,
                 sold := s.sold + q,
                 current_reserved_stock :=
                   s.current_reserved_stock - min q s.current_reserved_stock,
                 released_from_reservation :=
                   s.released_from_reservation + min q s.current_reserved_stock }) ∧
    (build_snapshot_data 0 10 5 [{ movement_type := .venta, quantity := 8 }]).closing_reserved_stock = 0 ∧
    (build_snapshot_data 0 10 5 [{ movement_type := .venta, quantity := 8 }]).quantity_released_from_reservation = 5 ∧
    (build_snapshot_data 0 10 5 [{ movement_type := .venta, quantity := 8 }]).closing_physical_stock = 10 - 8 := by
  refine ⟨fun s q => ?_, by decide, by decide, by decide⟩
  unfold process_transaction_detail
  rcases le_or_lt q s.current_reserved_stock with h | h
  · rw [if_pos (by simpa using h), min_eq_left h]
  · rw [if_neg (by simpa using h), min_eq_right (le_of_lt h)]
    simp

/-- C7 helper: the backward scan returns exactly the run length `k` of
consecutive alert days ending at `end_date` whenever the first gap is
within the fuel. -/
theorem consecutive_scan_run_length (alerts : Int → Bool) :
    ∀ (k : Nat) (end_date : Int) (fuel : Nat),
      (∀ i : Nat, i < k → alerts (end_date - i) = true) →
      alerts (end_date - k) = false →
      k < fuel →
      consecutive_scan alerts end_date fuel = k := by
  intro k
  induction k with
  | zero =>
    intro end_date fuel _ hgap hfuel
    obtain ⟨m, rfl⟩ := Nat.exists_eq_succ_of_ne_zero (by omega : fuel ≠ 0)
    unfold consecutive_scan
    simp only [Int.ofNat_zero, Int.sub_zero] at hgap
    simp [show alerts end_date = false by simpa using hgap]
  | succ k ih =>
    intro end_date fuel hrun hgap hfuel
    obtain ⟨m, rfl⟩ := Nat.exists_eq_succ_of_ne_zero (by omega : fuel ≠ 0)
    unfold consecutive_scan
    have h0 : alerts end_date = true := by simpa using hrun 0 (Nat.zero_lt_succ k)
    rw [h0, if_pos rfl]
    have : consecutive_scan alerts (end_date - 1) m = k := by
      apply ih
      · intro i hi
        have := hrun (i + 1) (by omega)
        have harith : end_date - 1 - (i : Int) = end_date - ((i : Nat) + 1 : Nat) := by
          push_cast; ring
        rw [harith]
        exact this
      · have harith : end_date - 1 - (k : Int) = end_date - ((k : Nat) + 1 : Nat) := by
          push_cast; ring
        rw [harith]
        exact hgap
      · omega
    omega

/-- C7 counterexample: the claim says the default lookback cap with no
cap argument is 30 days, but src/utils/calculate_alerts_days.py defaults
`max_lookback_days` to 90: with an alert on every day, the utility
function called without a cap scans 91 days (returning 91), while the
router copy — whose default really is 30 — returns 31. -/
theorem get_consecutive_alert_days_default_is_90_not_30 :
    CalculateAlertsDays.get_consecutive_alert_days (fun _ => true) 0 = 91 ∧
    MetricsRouter.get_consecutive_alert_days (fun _ => true) 0 = 31 ∧
    (91 : Nat) ≠ 31 := by
  refine ⟨?_, ?_, by decide⟩ <;> decide

/-- C7 (amended): both `get_consecutive_alert_days` implementations
return the length of the unbroken run of alert days ending at the end
date, stopping at the first gap, whenever the gap lies within the scan;
called with no cap argument, the utility-module copy
(src/utils/calculate_alerts_days.py) scans with its default cap of 90
days and the router copy (src/routers/metrics_router.py) with its
default cap of 30 days. -/
theorem get_consecutive_alert_days_run_length (alerts : Int → Bool)
    (end_date : Int) (k : Nat)
    (hrun : ∀ i : Nat, i < k → alerts (end_date - i) = true)
    (hgap : alerts (end_date - k) = false) :
    (k ≤ 90 → CalculateAlertsDays.get_consecutive_alert_days alerts end_date = k) ∧
    (k ≤ 30 → MetricsRouter.get_consecutive_alert_days alerts end_date = k) := by
  constructor
  · intro hk
    exact consecutive_scan_run_length alerts k end_date 91 hrun hgap (by omega)
  · intro hk
    exact consecutive_scan_run_length alerts k end_date 31 hrun hgap (by omega)

/-- Witness for C7: alerts on days 0, −1, −2 but not −3 give a count of
3 from both implementations at their defaults. -/
theorem get_consecutive_alert_days_run_length_witness :
    CalculateAlertsDays.get_consecutive_alert_days (fun d => decide (-3 < d)) 0 = 3 ∧
    MetricsRouter.get_consecutive_alert_days (fun d => decide (-3 < d)) 0 = 3 :=
  ⟨(get_consecutive_alert_days_run_length (fun d => decide (-3 < d)) 0 3
      (by decide) (by decide)).1 (by decide),
   (get_consecutive_alert_days_run_length (fun d => decide (-3 < d)) 0 3
      (by decide) (by decide)).2 (by decide)⟩

/-- Helper: folding `+ f i` over a list from `a` is `a` plus the mapped
sum. -/
theorem foldl_add_eq_sum {α : Type} (f : α → Int) :
    ∀ (l : List α) (a : Int), l.foldl (fun acc x => acc + f x) a = a + (l.map f).sum := by
  intro l
  induction l with
  | nil => intro a; simp
  | cons x xs ih =>
    intro a
    simp only [List.foldl_cons, List.map_cons, List.sum_cons, ih]
    ring

/-- Helper: for a positive window the lookback sum includes the snapshot
day itself on top of the remaining window shifted one day back. -/
theorem total_sold_lookback_includes_today (quantity_sold_on : Int → Int)
    (snap_date n : Int) (hn : 0 < n) :
    total_sold_lookback quantity_sold_on snap_date n =
      quantity_sold_on snap_date +
        total_sold_lookback quantity_sold_on (snap_date - 1) (n - 1) := by
  unfold total_sold_lookback
  obtain ⟨m, hm⟩ : ∃ m : Nat, n.toNat = m + 1 := ⟨n.toNat - 1, by omega⟩
  have hm2 : (n - 1).toNat = m := by omega
  rw [hm, hm2, List.range_succ_eq_map]
  rw [List.foldl_cons, foldl_add_eq_sum, foldl_add_eq_sum, List.map_map]
  have : (List.range m).map ((fun i : Nat => quantity_sold_on (snap_date - i)) ∘ Nat.succ) =
      (List.range m).map (fun i : Nat => quantity_sold_on (snap_date - 1 - i)) := by
    apply List.map_congr_left
    intro i _
    simp only [Function.comp_apply]
    congr 1
    push_cast
    ring
  rw [this]
  simp

/-- C5: for a snapshot evaluated for recomendacion_compra with S the sum
of quantity_sold over the configured lookback window ending at (and
including) the snapshot day: company 47 writes an alert iff
available > 0 and S > 0 and available < S; every other company writes an
alert iff available < S; every written alert stores the value
S − available. The last conjunct exhibits the inclusivity of the window:
for a positive window the sum counts the snapshot day itself. -/
theorem recomendacion_compra_alert_rule :
    (∀ (quantity_sold_on : Int → Int) (snap_date available company_id n : Int),
      evaluate_recomendacion_compra quantity_sold_on snap_date available company_id n =
        (if company_id = 47 then
          (if available > 0 ∧ total_sold_lookback quantity_sold_on snap_date n > 0 ∧
              available < total_sold_lookback quantity_sold_on snap_date n
           then [total_sold_lookback quantity_sold_on snap_date n - available] else [])
         else
          (if available < total_sold_lookback quantity_sold_on snap_date n
           then [total_sold_lookback quantity_sold_on snap_date n - available] else []))) ∧
    (∀ (quantity_sold_on : Int → Int) (snap_date n : Int), 0 < n →
      total_sold_lookback quantity_sold_on snap_date n =
        quantity_sold_on snap_date +
          total_sold_lookback quantity_sold_on (snap_date - 1) (n - 1)) := by
  constructor
  · intro quantity_sold_on snap_date available company_id n
    unfold evaluate_recomendacion_compra recompra_alert_writes
    by_cases h47 : company_id = 47 <;> split_ifs <;> simp_all
  · exact total_sold_lookback_includes_today

/-- Witness for C5: company 47 with available 3 and constant daily sales
1 over the default 15-day window (S = 15 > 0) stores 12 = 15 − 3; a
different company with available 0 also alerts with value 15; the
window recurrence at n = 15. -/
theorem recomendacion_compra_alert_rule_witness :
    evaluate_recomendacion_compra (fun _ => 1) 0 3 47 15 =
      (if (47 : Int) = 47 then
        (if (3:Int) > 0 ∧ total_sold_lookback (fun _ => 1) 0 15 > 0 ∧
            (3:Int) < total_sold_lookback (fun _ => 1) 0 15
         then [total_sold_lookback (fun _ => 1) 0 15 - 3] else [])
       else
        (if (3:Int) < total_sold_lookback (fun _ => 1) 0 15
         then [total_sold_lookback (fun _ => 1) 0 15 - 3] else [])) ∧
    total_sold_lookback (fun _ => 1) 0 15 =
      (fun _ : Int => (1:Int)) 0 + total_sold_lookback (fun _ => 1) (0 - 1) (15 - 1) :=
  ⟨(recomendacion_compra_alert_rule.1 (fun _ => 1) 0 3 47 15),
   (recomendacion_compra_alert_rule.2 (fun _ => 1) 0 15 (by decide))⟩

/-- Helper for C2: later loop iterations never touch rows dated before
the days they write, so a lookup strictly below `start_date + n` is
stable from iteration `n` on. -/
theorem recalculate_days_stable (txsOn : Int → List TransactionDetail)
    (table : SnapshotTable) (start_date : Int) :
    ∀ (m n : Nat), n ≤ m → ∀ d : Int, d < start_date + n →
      recalculate_days txsOn table start_date m d =
        recalculate_days txsOn table start_date n d := by
  intro m
  induction m with
  | zero =>
    intro n hn d _
    rw [Nat.le_zero.mp hn]
  | succ m ih =>
    intro n hn d hd
    rcases Nat.eq_or_lt_of_le hn with h | h
    · rw [h]
    · have hnm : n ≤ m := by omega
      have hstep :
          recalculate_days txsOn table start_date (m + 1) d =
            recalculate_days txsOn table start_date m d := by
        show process_one_day txsOn (recalculate_days txsOn table start_date m)
              (start_date + m) d = _
        unfold process_one_day upsert_snapshot
        have : d ≠ (build_snapshot_data (start_date + m)
            (opening_from_previous ((recalculate_days txsOn table start_date m)
              (start_date + m - 1))).1
            (opening_from_previous ((recalculate_days txsOn table start_date m)
              (start_date + m - 1))).2
            (txsOn (start_date + m))).snapshot_date := by
          show d ≠ start_date + m
          omega
        simp [this]
      rw [hstep, ih n hnm d hd]

/-- Helper for C2: `opening_from_previous` is exactly "previous closing,
or zero when no previous snapshot exists", field-wise. -/
theorem opening_from_previous_spec (prev : Option DailyStockSnapshot) :
    (opening_from_previous prev).1 =
      ((prev.map (fun p => p.closing_physical_stock)).getD 0) ∧
    (opening_from_previous prev).2 =
      ((prev.map (fun p => p.closing_reserved_stock)).getD 0) := by
  cases prev <;> exact ⟨rfl, rfl⟩

/-- C2: for every day `start_date + j` recomputed by the snapshot engine
(with `j` within the recomputed range), the written snapshot's opening
physical and reserved stock equal the day-before row's closing physical
and reserved stock in the resulting table, or zero when no day-before
row exists. -/
theorem snapshot_opening_equals_previous_closing
    (txsOn : Int → List TransactionDetail) (table : SnapshotTable)
    (start_date today : Int) (j : Nat)
    (hj : start_date + j ≤ today) :
    ∃ snap,
      recalculate_stock_snapshots txsOn table start_date today (start_date + j) =
        some snap ∧
      snap.opening_physical_stock =
        (((recalculate_stock_snapshots txsOn table start_date today
            (start_date + j - 1)).map (fun p => p.closing_physical_stock)).getD 0) ∧
      snap.opening_reserved_stock =
        (((recalculate_stock_snapshots txsOn table start_date today
            (start_date + j - 1)).map (fun p => p.closing_reserved_stock)).getD 0) := by
  set N : Nat := (today + 1 - start_date).toNat with hN
  have hjN : j + 1 ≤ N := by omega
  have hwrite :
      recalculate_stock_snapshots txsOn table start_date today (start_date + j) =
        recalculate_days txsOn table start_date (j + 1) (start_date + j) := by
    unfold recalculate_stock_snapshots
    rw [← hN]
    exact recalculate_days_stable txsOn table start_date N (j + 1) hjN
      (start_date + j) (by push_cast; omega)
  have hprev :
      recalculate_stock_snapshots txsOn table start_date today (start_date + j - 1) =
        recalculate_days txsOn table start_date j (start_date + j - 1) := by
    unfold recalculate_stock_snapshots
    rw [← hN]
    exact recalculate_days_stable txsOn table start_date N j (by omega)
      (start_date + j - 1) (by omega)
  have hstep :
      recalculate_days txsOn table start_date (j + 1) (start_date + j) =
        some (build_snapshot_data (start_date + j)
          (opening_from_previous
            ((recalculate_days txsOn table start_date j) (start_date + j - 1))).1
          (opening_from_previous
            ((recalculate_days txsOn table start_date j) (start_date + j - 1))).2
          (txsOn (start_date + j))) := by
    show process_one_day txsOn (recalculate_days txsOn table start_date j)
        (start_date + j) (start_date + j) = _
    unfold process_one_day upsert_snapshot
    simp [build_snapshot_data]
  refine ⟨_, by rw [hwrite, hstep], ?_, ?_⟩
  · show (opening_from_previous
        ((recalculate_days txsOn table start_date j) (start_date + j - 1))).1 = _
    rw [hprev]
    exact (opening_from_previous_spec _).1
  · show (opening_from_previous
        ((recalculate_days txsOn table start_date j) (start_date + j - 1))).2 = _
    rw [hprev]
    exact (opening_from_previous_spec _).2

/-- Witness for C2: an empty prior table, a `stock_inicial` 10 line on
day 1 and a `venta` 3 line on day 2, recomputed from day 1 through
day 2: the day-2 row opens at the day-1 row's closing stock. -/
theorem snapshot_opening_equals_previous_closing_witness :
    ∃ snap,
      recalculate_stock_snapshots
          (fun d => if d = 1 then [{ movement_type := .stock_inicial, quantity := 10 }]
                    else if d = 2 then [{ movement_type := .venta, quantity := 3 }] else [])
          (fun _ => none) 1 2 (1 + (1 : Nat)) = some snap ∧
      snap.opening_physical_stock =
        (((recalculate_stock_snapshots
            (fun d => if d = 1 then [{ movement_type := .stock_inicial, quantity := 10 }]
                      else if d = 2 then [{ movement_type := .venta, quantity := 3 }] else [])
            (fun _ => none) 1 2 (1 + (1 : Nat) - 1)).map
          (fun p => p.closing_physical_stock)).getD 0) ∧
      snap.opening_reserved_stock =
        (((recalculate_stock_snapshots
            (fun d => if d = 1 then [{ movement_type := .stock_inicial, quantity := 10 }]
                      else if d = 2 then [{ movement_type := .venta, quantity := 3 }] else [])
            (fun _ => none) 1 2 (1 + (1 : Nat) - 1)).map
          (fun p => p.closing_reserved_stock)).getD 0) :=
  snapshot_opening_equals_previous_closing _ (fun _ => none) 1 2 1 (by decide)

/-- Helper: lookup through a cons cell. -/
theorem dictGet_cons {α : Type} (p : String × α) (rest : List (String × α)) (k : String) :
    dictGet (p :: rest) k = if p.1 == k then some p.2 else dictGet rest k := by
  by_cases hp : (p.1 == k) = true <;> simp [dictGet, List.find?_cons, hp]

/-- Helper: appending a fresh key does not change other lookups. -/
theorem dictGet_append_single_ne {α : Type} (d : List (String × α))
    (k k₂ : String) (v : α) (h : k₂ ≠ k) :
    dictGet (d ++ [(k, v)]) k₂ = dictGet d k₂ := by
  induction d with
  | nil =>
    simp only [List.nil_append, dictGet_cons]
    have : (k == k₂) = false := by simpa using fun hc => h hc.symm
    simp [this, dictGet]
  | cons p rest ih =>
    rw [List.cons_append, dictGet_cons, dictGet_cons]
    by_cases hp : (p.1 == k₂) = true <;> simp [hp, ih]

/-- Helper: appending a key absent from the dict makes its lookup hit
the appended value. -/
theorem dictGet_append_single_self {α : Type} (k : String) (v : α) :
    ∀ d : List (String × α), d.any (fun p => p.1 == k) = false →
      dictGet (d ++ [(k, v)]) k = some v := by
  intro d
  induction d with
  | nil =>
    intro _
    rw [List.nil_append, dictGet_cons]
    simp
  | cons p rest ih =>
    intro hany
    rw [List.any_cons, Bool.or_eq_false_iff] at hany
    rw [List.cons_append, dictGet_cons]
    simp only [hany.1, if_false]
    exact ih hany.2

/-- Helper: the overwrite pass of `dictSet` does not change lookups of
other keys. -/
theorem dictGet_map_set_ne {α : Type} (k k₂ : String) (v : α) (h : k₂ ≠ k) :
    ∀ d : List (String × α),
      dictGet (d.map (fun p => if p.1 == k then (p.1, v) else p)) k₂ = dictGet d k₂ := by
  intro d
  induction d with
  | nil => rfl
  | cons p rest ih =>
    by_cases hp : (p.1 == k) = true
    · have hk : p.1 = k := by simpa using hp
      have hp2 : (p.1 == k₂) = false := by
        rw [hk]; simpa using fun hc => h hc.symm
      simp only [List.map_cons, if_pos hp]
      rw [dictGet_cons, dictGet_cons]
      simp only [hp2]
      simpa using ih
    · simp only [List.map_cons, if_neg hp]
      rw [dictGet_cons, dictGet_cons]
      by_cases hp2 : (p.1 == k₂) = true
      · simp [hp2]
      · simp only [hp2]
        simpa using ih

/-- Helper: the overwrite pass of `dictSet` makes the set key look up the
new value, provided the key occurs. -/
theorem dictGet_map_set_self {α : Type} (k : String) (v : α) :
    ∀ d : List (String × α), d.any (fun p => p.1 == k) = true →
      dictGet (d.map (fun p => if p.1 == k then (p.1, v) else p)) k = some v := by
  intro d
  induction d with
  | nil => intro hany; simp at hany
  | cons p rest ih =>
    intro hany
    by_cases hp : (p.1 == k) = true
    · simp only [List.map_cons, if_pos hp]
      rw [dictGet_cons]
      simp [hp]
    · have hrest : rest.any (fun q => q.1 == k) = true := by
        simp only [List.any_cons, hp, Bool.false_or] at hany
        exact hany
      simp only [List.map_cons, if_neg hp]
      rw [dictGet_cons]
      simp only [hp, if_false]
      exact ih hrest

/-- Helper: after `dictSet d k v`, looking up `k` yields `v`. -/
theorem dictGet_dictSet_self {α : Type} (d : List (String × α)) (k : String) (v : α) :
    dictGet (dictSet d k v) k = some v := by
  unfold dictSet
  by_cases hany : d.any (fun p => p.1 == k)
  · rw [if_pos hany]
    exact dictGet_map_set_self k v d hany
  · rw [if_neg hany]
    exact dictGet_append_single_self k v d (Bool.not_eq_true _ ▸ eq_false_of_ne_true hany)

/-- Helper: `dictSet d k v` leaves lookups of other keys unchanged. -/
theorem dictGet_dictSet_ne {α : Type} (d : List (String × α)) (k k₂ : String)
    (v : α) (h : k₂ ≠ k) :
    dictGet (dictSet d k v) k₂ = dictGet d k₂ := by
  unfold dictSet
  by_cases hany : d.any (fun p => p.1 == k)
  · rw [if_pos hany]
    exact dictGet_map_set_ne k k₂ v h d
  · rw [if_neg hany]
    exact dictGet_append_single_ne d k k₂ v h

/-- Helper: lookup of a key absent from the dict is `none`. -/
theorem dictGet_eq_none_of_not_mem {α : Type} (d : List (String × α)) (k : String)
    (h : k ∉ d.map Prod.fst) : dictGet d k = none := by
  induction d with
  | nil => rfl
  | cons p rest ih =>
    simp only [List.map_cons, List.mem_cons] at h
    push_neg at h
    have hp : (p.1 == k) = false := by simpa using fun hc => h.1 hc.symm
    rw [dictGet_cons]
    simp only [hp, if_false]
    exact ih h.2

/-- Helper: a `dict.update` with a duplicate-free overlay looks keys up
"overlay first, then the base dict". -/
theorem dictGet_dictUpdate {α : Type} (d other : List (String × α))
    (hnd : (other.map Prod.fst).Nodup) (k : String) :
    dictGet (dictUpdate d other) k =
      (dictGet other k).orElse (fun _ => dictGet d k) := by
  induction other generalizing d with
  | nil => simp [dictUpdate, dictGet]
  | cons p rest ih =>
    have hstep : dictUpdate d (p :: rest) = dictUpdate (dictSet d p.1 p.2) rest := rfl
    rw [hstep]
    simp only [List.map_cons, List.nodup_cons] at hnd
    rw [ih _ hnd.2]
    by_cases hk : k = p.1
    · have h1 : dictGet rest k = none :=
        dictGet_eq_none_of_not_mem rest k (hk ▸ hnd.1)
      have h2 : dictGet (dictSet d p.1 p.2) k = some p.2 := by
        rw [hk]; exact dictGet_dictSet_self d p.1 p.2
      have h3 : dictGet (p :: rest) k = some p.2 := by
        rw [dictGet_cons]
        simp [hk]
      rw [h1, h2, h3]
      rfl
    · have h2 : dictGet (dictSet d p.1 p.2) k = dictGet d k :=
        dictGet_dictSet_ne d p.1 k p.2 hk
      have h3 : dictGet (p :: rest) k = dictGet rest k := by
        rw [dictGet_cons]
        have : (p.1 == k) = false := by simpa using fun hc => hk hc.symm
        simp [this]
      rw [h2, h3]

/-- Helper for C6: with a warehouse id passed, the resolver is the
two-layer `dict.update` over the hardcoded defaults (a missing or empty
layer updates nothing, and updating with the empty dict is a no-op). -/
theorem get_effective_metric_config_as_updates (rows : List MetricConfiguration)
    (metric : MetricName) (wid : Int) :
    get_effective_metric_config rows metric (some wid) =
      dictUpdate
        (dictUpdate (hardcoded_defaults metric)
          ((query_config_json rows metric none).getD []))
        ((query_config_json rows metric (some wid)).getD []) := by
  show (match query_config_json rows metric (some wid) with
        | some w =>
          if w.isEmpty then
            (match query_config_json rows metric none with
             | some g => if g.isEmpty then hardcoded_defaults metric
                         else dictUpdate (hardcoded_defaults metric) g
             | none => hardcoded_defaults metric)
          else dictUpdate
            (match query_config_json rows metric none with
             | some g => if g.isEmpty then hardcoded_defaults metric
                         else dictUpdate (hardcoded_defaults metric) g
             | none => hardcoded_defaults metric) w
        | none =>
          (match query_config_json rows metric none with
           | some g => if g.isEmpty then hardcoded_defaults metric
                       else dictUpdate (hardcoded_defaults metric) g
           | none => hardcoded_defaults metric)) = _
  cases hg : query_config_json rows metric none with
  | none =>
    cases hw : query_config_json rows metric (some wid) with
    | none => rfl
    | some w =>
      by_cases hwe : w.isEmpty = true
      · obtain rfl : w = [] := List.isEmpty_iff.mp hwe
        rfl
      · simp [hwe, dictUpdate]
  | some g =>
    by_cases hge : g.isEmpty = true
    · obtain rfl : g = [] := List.isEmpty_iff.mp hge
      cases hw : query_config_json rows metric (some wid) with
      | none => rfl
      | some w =>
        by_cases hwe : w.isEmpty = true
        · obtain rfl : w = [] := List.isEmpty_iff.mp hwe
          rfl
        · simp [hwe, dictUpdate]
    · cases hw : query_config_json rows metric (some wid) with
      | none => simp [hge, dictUpdate]
      | some w =>
        by_cases hwe : w.isEmpty = true
        · obtain rfl : w = [] := List.isEmpty_iff.mp hwe
          simp [hge, dictUpdate]
        · simp [hge, hwe, dictUpdate]

/-- C6: the effective configuration for a metric and warehouse resolves
every key by "warehouse layer first, else company-global layer, else
hardcoded default" — each layer overwrites only the keys it defines and
all other keys fall through — and on the spec's example shape, defaults
a=1, b=2 overlaid with a global b=3 and a warehouse a=4 resolve to
a=4, b=3. -/
theorem effective_metric_config_layering (rows : List MetricConfiguration)
    (metric : MetricName) (wid : Int) (k : String)
    (hg : (((query_config_json rows metric none).getD []).map Prod.fst).Nodup)
    (hw : (((query_config_json rows metric (some wid)).getD []).map Prod.fst).Nodup) :
    dictGet (get_effective_metric_config rows metric (some wid)) k =
      ((dictGet ((query_config_json rows metric (some wid)).getD []) k).orElse fun _ =>
        ((dictGet ((query_config_json rows metric none).getD []) k).orElse fun _ =>
          dictGet (hardcoded_defaults metric) k)) ∧
    dictUpdate (dictUpdate [("a", 1), ("b", 2)] [("b", 3)]) [("a", 4)] =
      [("a", 4), ("b", 3)] := by
  constructor
  · rw [get_effective_metric_config_as_updates, dictGet_dictUpdate _ _ hw,
      dictGet_dictUpdate _ _ hg]
  · decide

/-- The concrete `MetricConfiguration` rows used by the C6 witness: an
active company-global override and an active warehouse-1 override for
stock_critico. -/
def c6_example_rows : List MetricConfiguration :=
  [{ metric_name := .stock_critico, warehouse_id := none, is_active := true,
     config_json := [("coverage_days_threshold", 5)] },
   { metric_name := .stock_critico, warehouse_id := some 1, is_active := true,
     config_json := [("days_for_avg", 7)] }]

/-- Witness for C6 at the concrete rows of `c6_example_rows`. -/
theorem effective_metric_config_layering_witness :
    (dictGet (get_effective_metric_config c6_example_rows .stock_critico (some 1))
        "days_for_avg" =
      ((dictGet ((query_config_json c6_example_rows .stock_critico (some 1)).getD [])
          "days_for_avg").orElse fun _ =>
        ((dictGet ((query_config_json c6_example_rows .stock_critico none).getD [])
            "days_for_avg").orElse fun _ =>
          dictGet (hardcoded_defaults .stock_critico) "days_for_avg")) ∧
      dictUpdate (dictUpdate [("a", 1), ("b", 2)] [("b", 3)]) [("a", 4)] =
        [("a", 4), ("b", 3)]) ∧
    dictGet (get_effective_metric_config c6_example_rows .stock_critico (some 1))
        "days_for_avg" = some 7 :=
  ⟨effective_metric_config_layering c6_example_rows .stock_critico 1 "days_for_avg"
      (by decide) (by decide),
   by decide⟩

/-- Helper: mapping a function that fixes every element is the identity. -/
theorem map_eq_self_of_fix {α : Type} (f : α → α) :
    ∀ l : List α, (∀ a ∈ l, f a = a) → l.map f = l := by
  intro l
  induction l with
  | nil => intro _; rfl
  | cons a rest ih =>
    intro h
    simp only [List.map_cons]
    rw [h a (List.mem_cons_self a rest), ih (fun b hb => h b (List.mem_cons_of_mem a hb))]

/-- Helper for C8: overview points accumulate as pure concatenation over
the reports, in fold order. -/
theorem aggregate_overview_concat (daily_reports : List GeneratedMetricReport) :
    ∀ acc : List OverviewDataPoint × List CounterItem,
      (daily_reports.foldl
        (fun acc r => (acc.1 ++ r.overview_data, r.counters.foldl merge_counter acc.2))
        acc).1 = acc.1 ++ (daily_reports.map (fun r => r.overview_data)).flatten := by
  induction daily_reports with
  | nil => intro acc; simp
  | cons r rest ih =>
    intro acc
    simp only [List.foldl_cons, List.map_cons, List.flatten_cons]
    rw [ih]
    simp [List.append_assoc]

/-- Helper for C8: the counters accumulator only depends on the
flattened stream of counter entries. -/
theorem aggregate_counters_flatten (daily_reports : List GeneratedMetricReport) :
    ∀ acc : List OverviewDataPoint × List CounterItem,
      (daily_reports.foldl
        (fun acc r => (acc.1 ++ r.overview_data, r.counters.foldl merge_counter acc.2))
        acc).2 =
      ((daily_reports.map (fun r => r.counters)).flatten).foldl merge_counter acc.2 := by
  induction daily_reports with
  | nil => intro acc; simp
  | cons r rest ih =>
    intro acc
    simp only [List.foldl_cons, List.map_cons, List.flatten_cons]
    rw [ih]
    rw [List.foldl_append]

/-- The per-name view of one `merge_counter` update: the first entry with
a given name is stored as-is, later entries add quantity and add
amount/price with `or 0` / `or 0.0` on both sides (lines 190-197 of
src/routers/metrics_router.py restricted to one dict key). -/
def merge_step (cur : Option CounterItem) (entry : CounterItem) : CounterItem :=
  match cur with
  | none => entry
  | some c =>
    { c with quantity := c.quantity + entry.quantity,
             amount := some (c.amount.getD 0 + entry.amount.getD 0),
             price := some (c.price.getD 0 + entry.price.getD 0) }

/-- Helper: lookup through a cons of counters. -/
theorem find_counter_cons (c : CounterItem) (rest : List CounterItem) (name : String) :
    find_counter (c :: rest) name = if c.name == name then some c else find_counter rest name := by
  by_cases hc : (c.name == name) = true <;> simp [find_counter, List.find?_cons, hc]

/-- Helper: merging an entry updates exactly its own name's slot. -/
theorem find_counter_merge_self (acc : List CounterItem) (entry : CounterItem) :
    find_counter (merge_counter acc entry) entry.name =
      some (merge_step (find_counter acc entry.name) entry) := by
  unfold merge_counter
  by_cases hany : acc.any (fun c => c.name == entry.name)
  · rw [if_pos hany]
    induction acc with
    | nil => simp at hany
    | cons c rest ih =>
      by_cases hc : (c.name == entry.name) = true
      · simp only [List.map_cons, if_pos hc]
        rw [find_counter_cons, find_counter_cons]
        simp only [hc, if_pos rfl]
        rfl
      · have hrest : rest.any (fun q => q.name == entry.name) = true := by
          simp only [List.any_cons, hc, Bool.false_or] at hany
          exact hany
        simp only [List.map_cons, if_neg hc]
        rw [find_counter_cons, find_counter_cons]
        simp only [hc, if_false]
        exact ih hrest
  · rw [if_neg hany]
    have hnone : find_counter acc entry.name = none := by
      unfold find_counter
      rw [List.find?_eq_none.mpr]
      intro x hx
      rw [Bool.not_eq_true, List.any_eq_false] at hany
      simpa using hany x hx
    rw [hnone]
    induction acc with
    | nil =>
      rw [List.nil_append, find_counter_cons]
      simp [merge_step]
    | cons c rest ih =>
      rw [find_counter_cons] at hnone
      by_cases hc : (c.name == entry.name) = true
      · simp [hc] at hnone
      · simp only [hc, if_false] at hnone
        have hrest : ¬ rest.any (fun q => q.name == entry.name) = true := by
          intro h
          apply hany
          simp only [List.any_cons, h, Bool.or_true]
        rw [List.cons_append, find_counter_cons]
        simp only [hc, if_false]
        exact ih hrest hnone

/-- Helper: merging an entry leaves other names' slots unchanged. -/
theorem find_counter_merge_ne (acc : List CounterItem) (entry : CounterItem)
    (name : String) (h : name ≠ entry.name) :
    find_counter (merge_counter acc entry) name = find_counter acc name := by
  unfold merge_counter
  by_cases hany : acc.any (fun c => c.name == entry.name)
  · rw [if_pos hany]
    induction acc with
    | nil => rfl
    | cons c rest ih =>
      by_cases hc : (c.name == entry.name) = true
      · have hcn : (c.name == name) = false := by
          have hce : c.name = entry.name := by simpa using hc
          rw [hce]; simpa using fun hc2 => h hc2.symm
        simp only [List.map_cons, if_pos hc]
        rw [find_counter_cons, find_counter_cons]
        simp only [hcn, if_false]
        by_cases hrest : rest.any (fun q => q.name == entry.name) = true
        · simpa using ih hrest
        · rw [map_eq_self_of_fix _ rest (fun q hq => by
            rw [Bool.not_eq_true, List.any_eq_false] at hrest
            have : (q.name == entry.name) = false := by simpa using hrest q hq
            simp [this])]
          simp
      · simp only [List.map_cons, if_neg hc]
        rw [find_counter_cons, find_counter_cons]
        by_cases hcn : (c.name == name) = true
        · simp [hcn]
        · simp only [hcn, if_false]
          have hrest : rest.any (fun q => q.name == entry.name) = true := by
            simp only [List.any_cons, hc, Bool.false_or] at hany
            exact hany
          simpa using ih hrest
  · rw [if_neg hany]
    induction acc with
    | nil =>
      rw [List.nil_append, find_counter_cons]
      have : (entry.name == name) = false := by simpa using fun hc => h hc.symm
      simp [this, find_counter]
    | cons c rest ih =>
      have hrest : ¬ rest.any (fun q => q.name == entry.name) = true := by
        intro hr
        apply hany
        simp only [List.any_cons, hr, Bool.or_true]
      rw [List.cons_append, find_counter_cons, find_counter_cons]
      by_cases hcn : (c.name == name) = true
      · simp [hcn]
      · simp only [hcn, if_false]
        exact ih hrest

/-- Helper for C8: folding the merge over a stream of entries affects one
name's slot exactly as folding `merge_step` over the entries carrying
that name. -/
theorem find_counter_foldl (name : String) :
    ∀ (es : List CounterItem) (acc : List CounterItem),
      find_counter (es.foldl merge_counter acc) name =
        (es.filter (fun e => e.name == name)).foldl
          (fun o e => some (merge_step o e)) (find_counter acc name) := by
  intro es
  induction es with
  | nil => intro acc; rfl
  | cons e rest ih =>
    intro acc
    simp only [List.foldl_cons]
    rw [ih]
    by_cases he : (e.name == name) = true
    · have hen : e.name = name := by simpa using he
      rw [List.filter_cons, if_pos he, List.foldl_cons]
      rw [show find_counter (merge_counter acc e) name =
            some (merge_step (find_counter acc name) e) from
        hen ▸ find_counter_merge_self acc e]
    · rw [List.filter_cons, if_neg he]
      rw [find_counter_merge_ne acc e name
        (fun hh => he (by simp [hh]))]

/-- Helper for C8: running `merge_step` from a present-amount seed sums
quantities, amounts and prices. -/
theorem merge_run :
    ∀ (rest : List CounterItem) (c : CounterItem),
      c.amount.isSome = true → c.price.isSome = true →
      ∃ c₂, rest.foldl (fun o e => some (merge_step o e)) (some c) = some c₂ ∧
        c₂.quantity = c.quantity + (rest.map (fun e => e.quantity)).sum ∧
        c₂.amount = some (c.amount.getD 0 + (rest.map (fun e => e.amount.getD 0)).sum) ∧
        c₂.price = some (c.price.getD 0 + (rest.map (fun e => e.price.getD 0)).sum) := by
  intro rest
  induction rest with
  | nil =>
    intro c ha hp
    obtain ⟨a, ha⟩ := Option.isSome_iff_exists.mp ha
    obtain ⟨p, hp⟩ := Option.isSome_iff_exists.mp hp
    exact ⟨c, rfl, by simp, by simp [ha], by simp [hp]⟩
  | cons e r ih =>
    intro c ha hp
    simp only [List.foldl_cons]
    obtain ⟨c₂, hfold, hq, hA, hP⟩ := ih (merge_step (some c) e) rfl rfl
    refine ⟨c₂, hfold, ?_, ?_, ?_⟩
    · rw [hq]
      simp [merge_step, add_assoc]
    · rw [hA]
      simp [merge_step, add_assoc]
    · rw [hP]
      simp [merge_step, add_assoc]

/-- Helper for C8: folding `merge_step` from `none` over a nonempty list
of entries, each with amount and price present, produces a counter whose
quantity, amount and price are the per-entry sums. -/
theorem merge_fold_sums (l : List CounterItem) (hne : l ≠ [])
    (hall : ∀ e ∈ l, e.amount.isSome = true ∧ e.price.isSome = true) :
    ∃ c, l.foldl (fun o e => some (merge_step o e)) none = some c ∧
      c.quantity = (l.map (fun e => e.quantity)).sum ∧
      c.amount = some ((l.map (fun e => e.amount.getD 0)).sum) ∧
      c.price = some ((l.map (fun e => e.price.getD 0)).sum) := by
  match l, hne with
  | e :: rest, _ =>
    have he := hall e (List.mem_cons_self e rest)
    obtain ⟨c, hfold, hq, hA, hP⟩ := merge_run rest e he.1 he.2
    obtain ⟨a, ha⟩ := Option.isSome_iff_exists.mp he.1
    obtain ⟨p, hp⟩ := Option.isSome_iff_exists.mp he.2
    refine ⟨c, ?_, ?_, ?_, ?_⟩
    · simpa [merge_step] using hfold
    · rw [hq]; simp
    · rw [hA]; simp
    · rw [hP]; simp

instance : IsTotal GeneratedMetricReport (fun a b => a.report_date ≤ b.report_date) :=
  ⟨fun a b => le_total a.report_date b.report_date⟩

instance : IsTrans GeneratedMetricReport (fun a b => a.report_date ≤ b.report_date) :=
  ⟨fun _ _ _ hab hbc => le_trans hab hbc⟩

/-- C8: aggregating a date range of pre-generated daily reports yields
(1) overview data points equal to the concatenation of every day's points
in report-date order (the queried reports are sorted by date), and
(2) counters merged by name, with quantity, amount and price each the sum
of the per-day values carrying that name (amounts/prices present). -/
theorem metrics_report_range_aggregation
    (table : List GeneratedMetricReport) (dateInit dateEnd : Int) (name : String) :
    (get_company_metrics_report table dateInit dateEnd).1 =
      ((query_daily_reports table dateInit dateEnd).map (fun r => r.overview_data)).flatten ∧
    List.Pairwise (fun a b => a.report_date ≤ b.report_date)
      (query_daily_reports table dateInit dateEnd) ∧
    ((∀ e ∈ ((query_daily_reports table dateInit dateEnd).map (fun r => r.counters)).flatten,
        e.amount.isSome = true ∧ e.price.isSome = true) →
      (((query_daily_reports table dateInit dateEnd).map (fun r => r.counters)).flatten.filter
        (fun e => e.name == name)) ≠ [] →
      ∃ c, find_counter (get_company_metrics_report table dateInit dateEnd).2 name = some c ∧
        c.quantity =
          ((((query_daily_reports table dateInit dateEnd).map (fun r => r.counters)).flatten.filter
            (fun e => e.name == name)).map (fun e => e.quantity)).sum ∧
        c.amount = some
          ((((query_daily_reports table dateInit dateEnd).map (fun r => r.counters)).flatten.filter
            (fun e => e.name == name)).map (fun e => e.amount.getD 0)).sum ∧
        c.price = some
          ((((query_daily_reports table dateInit dateEnd).map (fun r => r.counters)).flatten.filter
            (fun e => e.name == name)).map (fun e => e.price.getD 0)).sum) := by
  refine ⟨?_, ?_, ?_⟩
  · show (aggregate_daily_reports (query_daily_reports table dateInit dateEnd)).1 = _
    unfold aggregate_daily_reports
    rw [aggregate_overview_concat]
    simp
  · unfold query_daily_reports
    exact List.sorted_insertionSort _ _
  · intro hall hne
    have hagg2 : (get_company_metrics_report table dateInit dateEnd).2 =
        (((query_daily_reports table dateInit dateEnd).map (fun r => r.counters)).flatten).foldl
          merge_counter [] := by
      show (aggregate_daily_reports (query_daily_reports table dateInit dateEnd)).2 = _
      unfold aggregate_daily_reports
      rw [aggregate_counters_flatten]
    rw [hagg2, find_counter_foldl]
    exact merge_fold_sums _ hne (fun e hef => hall e (List.mem_of_mem_filter hef))

/-- The two concrete daily reports of the C8 witness: both carry a
stock_cero counter of quantity 2 / amount 0 / price 50.0. -/
def c8_example_table : List GeneratedMetricReport :=
  [{ report_date := 2,
     overview_data := [{ date := 2, net := 200, deviation := 7 }],
     counters := [{ name := "stock_cero", quantity := 2, amount := some 0, price := some 50 }] },
   { report_date := 1,
     overview_data := [{ date := 1, net := 100, deviation := 5 }],
     counters := [{ name := "stock_cero", quantity := 2, amount := some 0, price := some 50 }] }]

/-- Witness for C8: the two stock_cero counters merge to quantity 4 /
amount 0 / price 100.0, and the overview points come out date-ordered. -/
theorem metrics_report_range_aggregation_witness :
    (∃ c, find_counter (get_company_metrics_report c8_example_table 1 2).2 "stock_cero" = some c ∧
      c.quantity =
        ((((query_daily_reports c8_example_table 1 2).map (fun r => r.counters)).flatten.filter
          (fun e => e.name == "stock_cero")).map (fun e => e.quantity)).sum ∧
      c.amount = some
        ((((query_daily_reports c8_example_table 1 2).map (fun r => r.counters)).flatten.filter
          (fun e => e.name == "stock_cero")).map (fun e => e.amount.getD 0)).sum ∧
      c.price = some
        ((((query_daily_reports c8_example_table 1 2).map (fun r => r.counters)).flatten.filter
          (fun e => e.name == "stock_cero")).map (fun e => e.price.getD 0)).sum) ∧
    find_counter (get_company_metrics_report c8_example_table 1 2).2 "stock_cero" =
      some { name := "stock_cero", quantity := 4, amount := some 0, price := some 100 } ∧
    (get_company_metrics_report c8_example_table 1 2).1 =
      [{ date := 1, net := 100, deviation := 5 }, { date := 2, net := 200, deviation := 7 }] :=
  ⟨(metrics_report_range_aggregation c8_example_table 1 2 "stock_cero").2.2
      (by decide) (by decide),
   by with_unfolding_all rfl, by with_unfolding_all rfl⟩

/-- C10 counterexample: the claim says every payload item with an unknown
warehouse name or unknown SKU gets fresh rows created and its detail
attached, but a single item with an unknown warehouse, an unknown SKU,
positive quantity and an absent cost makes product creation evaluate
`Decimal(None)`: the task raises, rolls back, and creates nothing. -/
theorem bulk_unknown_refs_counterexample :
    process_bulk_transactions_task (init_bulk_state [] [] [] [] 1 1 1)
      [{ sucursal := "W1", transaccion := "T1", sku := "S1", descripcion := "d",
         tipo := .venta, categoria := none, cantidad := 1, costo := none,
         fecha_movimiento := 0 }] =
      .error "TypeError: conversion from NoneType to Decimal is not supported" ∧
    run_bulk_task (init_bulk_state [] [] [] [] 1 1 1)
      [{ sucursal := "W1", transaccion := "T1", sku := "S1", descripcion := "d",
         tipo := .venta, categoria := none, cantidad := 1, costo := none,
         fecha_movimiento := 0 }] =
      (init_bulk_state [] [] [] [] 1 1 1, []) ∧
    (run_bulk_task (init_bulk_state [] [] [] [] 1 1 1)
      [{ sucursal := "W1", transaccion := "T1", sku := "S1", descripcion := "d",
         tipo := .venta, categoria := none, cantidad := 1, costo := none,
         fecha_movimiento := 0 }]).1.warehouses = [] ∧
    (run_bulk_task (init_bulk_state [] [] [] [] 1 1 1)
      [{ sucursal := "W1", transaccion := "T1", sku := "S1", descripcion := "d",
         tipo := .venta, categoria := none, cantidad := 1, costo := none,
         fecha_movimiento := 0 }]).1.products = [] := by
  exact ⟨rfl, rfl, rfl, rfl⟩

/-- Helper: an entry of `dictSet d k v` is an old entry or `(k, v)`. -/
theorem dictSet_mem {α : Type} (d : List (String × α)) (k : String) (v : α)
    (e : String × α) (he : e ∈ dictSet d k v) : e ∈ d ∨ e = (k, v) := by
  unfold dictSet at he
  by_cases hany : d.any (fun p => p.1 == k)
  · rw [if_pos hany] at he
    obtain ⟨p, hp, hpe⟩ := List.mem_map.mp he
    by_cases hpk : (p.1 == k) = true
    · right
      rw [if_pos hpk] at hpe
      have : p.1 = k := by simpa using hpk
      rw [← hpe, this]
    · left
      rw [if_neg hpk] at hpe
      exact hpe ▸ hp
  · rw [if_neg hany] at he
    rcases List.mem_append.mp he with h | h
    · exact Or.inl h
    · exact Or.inr (List.mem_singleton.mp h)

/-- Helper: every entry of a Python dict comprehension comes from a row,
keyed by the comprehension's key function. -/
theorem build_cache_mem {α : Type} (key : α → String) :
    ∀ (rows : List α) (acc : List (String × α)) (e : String × α),
      e ∈ rows.foldl (fun acc r => dictSet acc (key r) r) acc →
      e ∈ acc ∨ ∃ r ∈ rows, e = (key r, r) := by
  intro rows
  induction rows with
  | nil => intro acc e he; exact Or.inl he
  | cons r rest ih =>
    intro acc e he
    rcases ih (dictSet acc (key r) r) e he with h | ⟨r₂, hr₂, he₂⟩
    · rcases dictSet_mem acc (key r) r e h with h2 | h2
      · exact Or.inl h2
      · exact Or.inr ⟨r, List.mem_cons_self r rest, h2⟩
    · exact Or.inr ⟨r₂, List.mem_cons_of_mem r hr₂, he₂⟩

/-- Helper: a successful dict lookup exhibits a matching entry. -/
theorem dictGet_mem {α : Type} (d : List (String × α)) (k : String) (v : α)
    (h : dictGet d k = some v) : (k, v) ∈ d := by
  unfold dictGet at h
  obtain ⟨pr, hfind, hpr⟩ := Option.map_eq_some'.mp h
  have hmem := List.mem_of_find?_eq_some hfind
  have hkey : pr.1 = k := by simpa using List.find?_some hfind
  have : pr = (k, v) := by
    cases pr
    simp only at hpr hkey
    rw [hpr, hkey]
  exact this ▸ hmem

/-- The cache coherence invariant the bulk task maintains: every cached
warehouse is a real row keyed by its lowered name, every cached product a
real row keyed by its SKU. -/
def BulkInv (st : BulkState) : Prop :=
  (∀ pr ∈ st.warehouses_cache, pr.2 ∈ st.warehouses ∧ pr.2.name.toLower = pr.1) ∧
  (∀ pr ∈ st.products_cache, pr.2 ∈ st.products ∧ pr.2.code = pr.1)

/-- Helper: the initial task state satisfies the cache invariant. -/
theorem init_bulk_state_inv (ws : List Warehouse) (ps : List Product)
    (ts : List TransactionRow) (ds : List TransactionDetailRow)
    (nw np nt : Int) : BulkInv (init_bulk_state ws ps ts ds nw np nt) := by
  constructor
  · intro pr hpr
    simp only [init_bulk_state] at hpr
    unfold build_cache at hpr
    rcases build_cache_mem (fun w => w.name.toLower) ws [] pr hpr with h | ⟨r, hr, he⟩
    · simp at h
    · rw [he]
      exact ⟨hr, rfl⟩
  · intro pr hpr
    simp only [init_bulk_state] at hpr
    unfold build_cache at hpr
    rcases build_cache_mem (fun p => p.code) ps [] pr hpr with h | ⟨r, hr, he⟩
    · simp at h
    · rw [he]
      exact ⟨hr, rfl⟩

/-- Helper: `get_or_create_warehouse` succeeds, preserves the invariant,
only appends to the warehouse table, and hands back a warehouse row whose
lowered name is the requested key. -/
theorem get_or_create_warehouse_spec (st : BulkState) (sucursal_lower original_name : String)
    (hinv : BulkInv st) (hsl : original_name.toLower = sucursal_lower) :
    ∃ st₂ w, get_or_create_warehouse st sucursal_lower original_name = (st₂, w) ∧
      BulkInv st₂ ∧
      (∃ dw, st₂.warehouses = st.warehouses ++ dw) ∧
      w ∈ st₂.warehouses ∧ w.name.toLower = sucursal_lower ∧
      st₂.products = st.products ∧ st₂.products_cache = st.products_cache ∧
      st₂.transactions = st.transactions ∧ st₂.details = st.details ∧
      st₂.existing_transactions_cache = st.existing_transactions_cache := by
  unfold get_or_create_warehouse
  cases hget : dictGet st.warehouses_cache sucursal_lower with
  | some w =>
    have hmem := dictGet_mem st.warehouses_cache sucursal_lower w hget
    have hw := hinv.1 (sucursal_lower, w) hmem
    exact ⟨st, w, rfl, hinv, ⟨[], (List.append_nil _).symm⟩, hw.1, hw.2, rfl, rfl, rfl, rfl, rfl⟩
  | none =>
    refine ⟨_, _, rfl, ?_, ⟨[{ id := st.next_warehouse_id, name := original_name }], rfl⟩,
      List.mem_append_right _ (List.mem_singleton.mpr rfl), hsl, rfl, rfl, rfl, rfl, rfl⟩
    constructor
    · intro pr hpr
      rcases dictSet_mem st.warehouses_cache sucursal_lower
          { id := st.next_warehouse_id, name := original_name } pr hpr with h | h
      · have := hinv.1 pr h
        exact ⟨List.mem_append_left _ this.1, this.2⟩
      · rw [h]
        exact ⟨List.mem_append_right _ (List.mem_singleton.mpr rfl), hsl⟩
    · intro pr hpr
      exact hinv.2 pr hpr

/-- Helper: `get_or_create_product` succeeds when the item carries a cost
or non-positive quantity, preserves the invariant, only appends to the
product table, and hands back a product row carrying the item's SKU. -/
theorem get_or_create_product_spec (st : BulkState) (item : PayloadItem)
    (hinv : BulkInv st)
    (hcost : item.costo.isSome = true ∨ ¬ 0 < item.cantidad) :
    ∃ st₂ p, get_or_create_product st item = .ok (st₂, p) ∧
      BulkInv st₂ ∧
      (∃ dp, st₂.products = st.products ++ dp) ∧
      p ∈ st₂.products ∧ p.code = item.sku ∧
      st₂.warehouses = st.warehouses ∧ st₂.warehouses_cache = st.warehouses_cache ∧
      st₂.transactions = st.transactions ∧ st₂.details = st.details ∧
      st₂.existing_transactions_cache = st.existing_transactions_cache := by
  unfold get_or_create_product
  cases hget : dictGet st.products_cache item.sku with
  | some p =>
    have hmem := dictGet_mem st.products_cache item.sku p hget
    have hp := hinv.2 (item.sku, p) hmem
    exact ⟨st, p, rfl, hinv, ⟨[], (List.append_nil _).symm⟩, hp.1, hp.2, rfl, rfl, rfl, rfl, rfl⟩
  | none =>
    have hinv₂ : ∀ (q : Product), q.code = item.sku →
        BulkInv { st with products := st.products ++ [q],
                          products_cache := dictSet st.products_cache item.sku q,
                          next_product_id := st.next_product_id + 1 } := by
      intro q hq
      constructor
      · intro pr hpr
        exact hinv.1 pr hpr
      · intro pr hpr
        rcases dictSet_mem st.products_cache item.sku q pr hpr with h | h
        · have := hinv.2 pr h
          exact ⟨List.mem_append_left _ this.1, this.2⟩
        · rw [h]
          exact ⟨List.mem_append_right _ (List.mem_singleton.mpr rfl), hq⟩
    by_cases hqty : 0 < item.cantidad
    · rw [if_pos hqty]
      cases hco : item.costo with
      | none =>
        exfalso
        rcases hcost with h | h
        · rw [hco] at h
          simp at h
        · exact h hqty
      | some costo =>
        refine ⟨_, _, rfl, hinv₂ _ rfl, ⟨_, rfl⟩,
          List.mem_append_right _ (List.mem_singleton.mpr rfl), rfl, rfl, rfl, rfl, rfl, rfl⟩
    · rw [if_neg hqty]
      refine ⟨_, _, rfl, hinv₂ _ rfl, ⟨_, rfl⟩,
        List.mem_append_right _ (List.mem_singleton.mpr rfl), rfl, rfl, rfl, rfl, rfl, rfl⟩


/-- Helper: the detail loop of one group (lines 102-125) succeeds under
the cost proviso, preserves the invariant, only appends products and
details, and attaches one detail per item to a product row carrying the
item's SKU. -/
theorem detail_fold_spec (txid : Int) :
    ∀ (items : List PayloadItem) (st : BulkState),
      BulkInv st →
      (∀ item ∈ items, item.costo.isSome = true ∨ ¬ 0 < item.cantidad) →
      ∃ st₂, (items.foldlM
          (fun st item => do
            let pr ← get_or_create_product st item
            pure { pr.1 with details := pr.1.details ++ [mk_detail txid pr.2 item] })
          st : Except String BulkState) = .ok st₂ ∧
        BulkInv st₂ ∧
        (∃ dp, st₂.products = st.products ++ dp) ∧
        (∃ dd, st₂.details = st.details ++ dd ∧ ∀ d ∈ dd, d.transaction_id = txid) ∧
        st₂.warehouses = st.warehouses ∧
        st₂.transactions = st.transactions ∧
        st₂.existing_transactions_cache = st.existing_transactions_cache ∧
        (∀ item ∈ items, ∃ p ∈ st₂.products, p.code = item.sku ∧
          ∃ d ∈ st₂.details, d.product_id = p.id ∧ d.transaction_id = txid) := by
  intro items
  induction items with
  | nil =>
    intro st hinv _
    refine ⟨st, rfl, hinv, ⟨[], (List.append_nil _).symm⟩,
      ⟨[], (List.append_nil _).symm, fun d hd => absurd hd (List.not_mem_nil d)⟩,
      rfl, rfl, rfl, ?_⟩
    intro item h
    exact absurd h (List.not_mem_nil item)
  | cons item rest ih =>
    intro st hinv hcost
    obtain ⟨st₁, p, hget, hinv₁, ⟨dp₁, hdp₁⟩, hpmem, hpcode, hwh₁, hwc₁, htx₁, hdet₁, hex₁⟩ :=
      get_or_create_product_spec st item hinv
        (hcost item (List.mem_cons_self item rest))
    have hinvu : BulkInv { st₁ with details := st₁.details ++ [mk_detail txid p item] } := by
      exact ⟨hinv₁.1, hinv₁.2⟩
    obtain ⟨st₂, hfold, hinv₂, ⟨dp₂, hdp₂⟩, ⟨dd₂, hdd₂, hddall₂⟩, hwh₂, htx₂, hex₂, hitems⟩ :=
      ih { st₁ with details := st₁.details ++ [mk_detail txid p item] }
        hinvu
        (fun it hit => hcost it (List.mem_cons_of_mem item hit))
    have hdp₂b : st₂.products = st₁.products ++ dp₂ := hdp₂
    have hdd₂b : st₂.details = (st₁.details ++ [mk_detail txid p item]) ++ dd₂ := hdd₂
    have hwh₂b : st₂.warehouses = st₁.warehouses := hwh₂
    have htx₂b : st₂.transactions = st₁.transactions := htx₂
    have hex₂b : st₂.existing_transactions_cache = st₁.existing_transactions_cache := hex₂
    refine ⟨st₂, ?_, hinv₂, ?_, ?_, ?_, ?_, ?_, ?_⟩
    · rw [List.foldlM_cons, hget]
      exact hfold
    · exact ⟨dp₁ ++ dp₂, by rw [hdp₂b, hdp₁, List.append_assoc]⟩
    · refine ⟨mk_detail txid p item :: dd₂,
        by rw [hdd₂b, hdet₁, List.append_assoc]; rfl, ?_⟩
      intro d hd
      rcases List.mem_cons.mp hd with h | h
      · subst h
        rfl
      · exact hddall₂ d h
    · rw [hwh₂b, hwh₁]
    · rw [htx₂b, htx₁]
    · rw [hex₂b, hex₁]
    · intro it hit
      rcases List.mem_cons.mp hit with h | h
      · subst h
        refine ⟨p, ?_, hpcode, mk_detail txid p it, ?_, rfl, rfl⟩
        · rw [hdp₂b]
          exact List.mem_append_left _ hpmem
        · rw [hdd₂b]
          exact List.mem_append_left _ (List.mem_append_right _ (List.mem_singleton.mpr rfl))
      · exact hitems it h

/-- Helper: processing one nonempty group (lines 72-126) succeeds under
the cost proviso; it only appends rows, never grows the existing-pair
cache, guarantees a warehouse row for the group's lowered name, creates
transactions only for pairs outside the existing-pair cache, and either
skips the whole group (recording its key) or attaches a detail row to a
product row with the right SKU for every item. -/
theorem process_group_spec (st : BulkState) (sk : List (String × String))
    (key : String × String) (items : List PayloadItem)
    (hinv : BulkInv st)
    (hne : items ≠ [])
    (hkey : ∀ item ∈ items, item.sucursal.toLower = key.1 ∧ item.transaccion = key.2)
    (hcost : ∀ item ∈ items, item.costo.isSome = true ∨ ¬ 0 < item.cantidad) :
    ∃ st₂ skd, process_group (st, sk) (key, items) = .ok (st₂, sk ++ skd) ∧
      BulkInv st₂ ∧
      (∃ dw, st₂.warehouses = st.warehouses ++ dw) ∧
      (∃ dp, st₂.products = st.products ++ dp) ∧
      (∃ dd, st₂.details = st.details ++ dd ∧
        ∀ d ∈ dd, ∃ t ∈ st₂.transactions, t.id = d.transaction_id ∧
          (t.reference_code, t.warehouse_id) ∉ st.existing_transactions_cache) ∧
      (∃ dt, st₂.transactions = st.transactions ++ dt ∧
        ∀ t ∈ dt, (t.reference_code, t.warehouse_id) ∉ st.existing_transactions_cache) ∧
      st₂.existing_transactions_cache = st.existing_transactions_cache ∧
      (∃ w ∈ st₂.warehouses, w.name.toLower = key.1) ∧
      (skd = [key] ∨ (skd = [] ∧ ∀ item ∈ items, ∃ p ∈ st₂.products, p.code = item.sku ∧
        ∃ d ∈ st₂.details, d.product_id = p.id)) := by
  obtain ⟨first, rest, rfl⟩ : ∃ f r, items = f :: r := by
    cases items with
    | nil => exact absurd rfl hne
    | cons f r => exact ⟨f, r, rfl⟩
  obtain ⟨st₁, w, hw_eq, hinv₁, ⟨dw, hdw⟩, hwmem, hwname, hpr₁, hprc₁, htx₁, hdet₁, hex₁⟩ :=
    get_or_create_warehouse_spec st key.1 first.sucursal hinv
      (hkey first (List.mem_cons_self first rest)).1
  by_cases hc : st₁.existing_transactions_cache.contains (key.2, w.id) = true
  · refine ⟨st₁, [key], ?_, hinv₁, ⟨dw, hdw⟩,
      ⟨[], by rw [hpr₁, List.append_nil]⟩,
      ⟨[], by rw [hdet₁, List.append_nil], fun d hd => absurd hd (List.not_mem_nil d)⟩,
      ⟨[], by rw [htx₁, List.append_nil], fun t ht => absurd ht (List.not_mem_nil t)⟩,
      hex₁, ⟨w, hwmem, hwname⟩, Or.inl rfl⟩
    unfold process_group
    simp only [hw_eq]
    rw [if_pos hc, Prod.mk.eta]
  · obtain ⟨st₂, hfold, hinv₂, ⟨dp₂, hdp₂⟩, ⟨dd₂, hdd₂, hddall₂⟩, hwh₂, htx₂, hex₂, hitems⟩ :=
      detail_fold_spec st₁.next_transaction_id (first :: rest)
        { st₁ with
          transactions := st₁.transactions ++
            [{ id := st₁.next_transaction_id, reference_code := key.2,
               transaction_date := first.fecha_movimiento, warehouse_id := w.id }],
          next_transaction_id := st₁.next_transaction_id + 1 }
        ⟨hinv₁.1, hinv₁.2⟩ hcost
    have hdp₂b : st₂.products = st₁.products ++ dp₂ := hdp₂
    have hdd₂b : st₂.details = st₁.details ++ dd₂ := hdd₂
    have hwh₂b : st₂.warehouses = st₁.warehouses := hwh₂
    have htx₂b : st₂.transactions = st₁.transactions ++
        [{ id := st₁.next_transaction_id, reference_code := key.2,
           transaction_date := first.fecha_movimiento, warehouse_id := w.id }] := htx₂
    have hex₂b : st₂.existing_transactions_cache = st₁.existing_transactions_cache := hex₂
    refine ⟨st₂, [], ?_, hinv₂, ?_, ?_, ?_, ?_, ?_, ?_, ?_⟩
    · unfold process_group
      simp only [hw_eq]
      rw [if_neg hc, List.append_nil, hfold]
      rfl
    · exact ⟨dw, by rw [hwh₂b, hdw]⟩
    · exact ⟨dp₂, by rw [hdp₂b, hpr₁]⟩
    · refine ⟨dd₂, by rw [hdd₂b, hdet₁], ?_⟩
      intro d hd
      refine ⟨⟨st₁.next_transaction_id, key.2, first.fecha_movimiento, w.id⟩, ?_, ?_, ?_⟩
      · rw [htx₂b]
        exact List.mem_append_right _ (List.mem_singleton.mpr rfl)
      · exact (hddall₂ d hd).symm
      · intro hmem
        apply hc
        rw [hex₁]
        exact List.elem_eq_true_of_mem hmem
    · refine ⟨[(⟨st₁.next_transaction_id, key.2, first.fecha_movimiento, w.id⟩ : TransactionRow)], ?_, ?_⟩
      · rw [htx₂b, htx₁]
      · intro t ht
        rw [List.mem_singleton] at ht
        subst ht
        intro hmem
        apply hc
        rw [hex₁]
        exact List.elem_eq_true_of_mem hmem
    · rw [hex₂b, hex₁]
    · exact ⟨w, by rw [hwh₂b]; exact hwmem, hwname⟩
    · refine Or.inr ⟨rfl, ?_⟩
      intro item hit
      obtain ⟨p, hp, hcode, d, hd, hdp, _⟩ := hitems item hit
      exact ⟨p, hp, hcode, d, hd, hdp⟩

/-- Helper: folding `process_group` over well-formed groups (lines
69-127) succeeds under the cost proviso and accumulates the per-group
guarantees. -/
theorem process_groups_fold_spec :
    ∀ (groups : List ((String × String) × List PayloadItem)) (st : BulkState)
      (sk : List (String × String)),
      BulkInv st →
      (∀ g ∈ groups, g.2 ≠ [] ∧ ∀ item ∈ g.2,
        item.sucursal.toLower = g.1.1 ∧ item.transaccion = g.1.2) →
      (∀ g ∈ groups, ∀ item ∈ g.2, item.costo.isSome = true ∨ ¬ 0 < item.cantidad) →
      ∃ st₂ skd, groups.foldlM process_group (st, sk) = .ok (st₂, sk ++ skd) ∧
        BulkInv st₂ ∧
        (∃ dw, st₂.warehouses = st.warehouses ++ dw) ∧
        (∃ dp, st₂.products = st.products ++ dp) ∧
        (∃ dd, st₂.details = st.details ++ dd ∧
          ∀ d ∈ dd, ∃ t ∈ st₂.transactions, t.id = d.transaction_id ∧
            (t.reference_code, t.warehouse_id) ∉ st.existing_transactions_cache) ∧
        (∃ dt, st₂.transactions = st.transactions ++ dt ∧
          ∀ t ∈ dt, (t.reference_code, t.warehouse_id) ∉ st.existing_transactions_cache) ∧
        st₂.existing_transactions_cache = st.existing_transactions_cache ∧
        (∀ g ∈ groups, ∃ w ∈ st₂.warehouses, w.name.toLower = g.1.1) ∧
        (∀ g ∈ groups, g.1 ∈ sk ++ skd ∨ ∀ item ∈ g.2,
          ∃ p ∈ st₂.products, p.code = item.sku ∧ ∃ d ∈ st₂.details, d.product_id = p.id) := by
  intro groups
  induction groups with
  | nil =>
    intro st sk hinv _ _
    refine ⟨st, [], by rw [List.append_nil]; rfl, hinv,
      ⟨[], (List.append_nil _).symm⟩, ⟨[], (List.append_nil _).symm⟩,
      ⟨[], (List.append_nil _).symm, fun d hd => absurd hd (List.not_mem_nil d)⟩,
      ⟨[], (List.append_nil _).symm, fun t ht => absurd ht (List.not_mem_nil t)⟩,
      rfl, ?_, ?_⟩
    · intro g hg
      exact absurd hg (List.not_mem_nil g)
    · intro g hg
      exact absurd hg (List.not_mem_nil g)
  | cons g rest ih =>
    intro st sk hinv hgroups hcost
    have hg := hgroups g (List.mem_cons_self g rest)
    obtain ⟨st₁, skd₁, heq, hinv₁, ⟨dw₁, hdw₁⟩, ⟨dp₁, hdp₁⟩, ⟨dd₁, hdd₁, hddnew₁⟩,
        ⟨dt₁, hdt₁, hdt₁pairs⟩, hex₁, ⟨w, hwmem, hwname⟩, hor₁⟩ :=
      process_group_spec st sk g.1 g.2 hinv hg.1 hg.2
        (hcost g (List.mem_cons_self g rest))
    have heq2 : process_group (st, sk) g = .ok (st₁, sk ++ skd₁) := heq
    obtain ⟨st₂, skd₂, heqr, hinv₂, ⟨dw₂, hdw₂⟩, ⟨dp₂, hdp₂⟩, ⟨dd₂, hdd₂, hddnew₂⟩,
        ⟨dt₂, hdt₂, hdt₂pairs⟩, hex₂, hws₂, hor₂⟩ :=
      ih st₁ (sk ++ skd₁) hinv₁
        (fun g2 hg2 => hgroups g2 (List.mem_cons_of_mem g hg2))
        (fun g2 hg2 => hcost g2 (List.mem_cons_of_mem g hg2))
    refine ⟨st₂, skd₁ ++ skd₂, ?_, hinv₂,
      ⟨dw₁ ++ dw₂, by rw [hdw₂, hdw₁, List.append_assoc]⟩,
      ⟨dp₁ ++ dp₂, by rw [hdp₂, hdp₁, List.append_assoc]⟩,
      ⟨dd₁ ++ dd₂, by rw [hdd₂, hdd₁, List.append_assoc], ?_⟩,
      ⟨dt₁ ++ dt₂, by rw [hdt₂, hdt₁, List.append_assoc], ?_⟩,
      by rw [hex₂, hex₁], ?_, ?_⟩
    · rw [List.foldlM_cons, heq2]
      show rest.foldlM process_group (st₁, sk ++ skd₁) = _
      rw [heqr, List.append_assoc]
    · intro d hd
      rcases List.mem_append.mp hd with h | h
      · obtain ⟨t, ht, hid, hpair⟩ := hddnew₁ d h
        exact ⟨t, by rw [hdt₂]; exact List.mem_append_left _ ht, hid, hpair⟩
      · obtain ⟨t, ht, hid, hpair⟩ := hddnew₂ d h
        rw [hex₁] at hpair
        exact ⟨t, ht, hid, hpair⟩
    · intro t ht
      rcases List.mem_append.mp ht with h | h
      · exact hdt₁pairs t h
      · rw [← hex₁]
        exact hdt₂pairs t h
    · intro g2 hg2
      rcases List.mem_cons.mp hg2 with h | h
      · subst h
        exact ⟨w, by rw [hdw₂]; exact List.mem_append_left _ hwmem, hwname⟩
      · exact hws₂ g2 h
    · intro g2 hg2
      rcases List.mem_cons.mp hg2 with h | h
      · subst h
        rcases hor₁ with hskip | ⟨-, hprod⟩
        · left
          rw [hskip, ← List.append_assoc]
          exact List.mem_append_left _ (List.mem_append_right _ (List.mem_singleton.mpr rfl))
        · right
          intro item hit
          obtain ⟨p, hp, hcode, d, hd, hdpid⟩ := hprod item hit
          refine ⟨p, by rw [hdp₂]; exact List.mem_append_left _ hp, hcode,
            d, by rw [hdd₂]; exact List.mem_append_left _ hd, hdpid⟩
      · rcases hor₂ g2 h with hskip | hprod
        · left
          rw [← List.append_assoc]
          exact hskip
        · exact Or.inr hprod

/-- Helper: every group built by the defaultdict grouping is nonempty and
all its items carry the group's (lowered sucursal, transaccion) key. -/
theorem grouped_transactions_wf_aux :
    ∀ (payload : List PayloadItem) (acc : List ((String × String) × List PayloadItem)),
      (∀ g ∈ acc, g.2 ≠ [] ∧ ∀ item ∈ g.2,
        item.sucursal.toLower = g.1.1 ∧ item.transaccion = g.1.2) →
      ∀ g ∈ payload.foldl
          (fun acc item =>
            let key := (item.sucursal.toLower, item.transaccion)
            if acc.any (fun g => g.1 == key) then
              acc.map (fun g => if g.1 == key then (g.1, g.2 ++ [item]) else g)
            else acc ++ [(key, [item])])
          acc,
        g.2 ≠ [] ∧ ∀ item ∈ g.2,
          item.sucursal.toLower = g.1.1 ∧ item.transaccion = g.1.2 := by
  intro payload
  induction payload with
  | nil => intro acc hacc g hg; exact hacc g hg
  | cons i rest ih =>
    intro acc hacc
    apply ih
    intro g hg
    by_cases hany : acc.any (fun g => g.1 == (i.sucursal.toLower, i.transaccion))
    · simp only [if_pos hany] at hg
      obtain ⟨g₀, hg₀, hge⟩ := List.mem_map.mp hg
      by_cases hk : (g₀.1 == (i.sucursal.toLower, i.transaccion)) = true
      · rw [if_pos hk] at hge
        have hk2 : g₀.1 = (i.sucursal.toLower, i.transaccion) := by simpa using hk
        subst hge
        refine ⟨by simp, ?_⟩
        intro item hitem
        rcases List.mem_append.mp hitem with h | h
        · exact (hacc g₀ hg₀).2 item h
        · rw [List.mem_singleton] at h
          subst h
          rw [hk2]
          exact ⟨rfl, rfl⟩
      · rw [if_neg hk] at hge
        subst hge
        exact hacc g₀ hg₀
    · simp only [if_neg hany] at hg
      rcases List.mem_append.mp hg with h | h
      · exact hacc g h
      · rw [List.mem_singleton] at h
        subst h
        refine ⟨by simp, ?_⟩
        intro item hitem
        rw [List.mem_singleton] at hitem
        subst hitem
        exact ⟨rfl, rfl⟩

/-- Helper: every payload item lands in some group. -/
theorem grouped_transactions_cover_aux :
    ∀ (payload : List PayloadItem) (acc : List ((String × String) × List PayloadItem))
      (item : PayloadItem),
      ((∃ g ∈ acc, item ∈ g.2) ∨ item ∈ payload) →
      ∃ g ∈ payload.foldl
          (fun acc item =>
            let key := (item.sucursal.toLower, item.transaccion)
            if acc.any (fun g => g.1 == key) then
              acc.map (fun g => if g.1 == key then (g.1, g.2 ++ [item]) else g)
            else acc ++ [(key, [item])])
          acc,
        item ∈ g.2 := by
  intro payload
  induction payload with
  | nil =>
    intro acc item h
    rcases h with h | h
    · exact h
    · exact absurd h (List.not_mem_nil item)
  | cons i rest ih =>
    intro acc item h
    apply ih
    by_cases hit : item ∈ rest
    · exact Or.inr hit
    · left
      rcases h with ⟨g, hg, hgi⟩ | h
      · by_cases hany : acc.any (fun g => g.1 == (i.sucursal.toLower, i.transaccion))
        · simp only [if_pos hany]
          refine ⟨(if g.1 == (i.sucursal.toLower, i.transaccion) then (g.1, g.2 ++ [i]) else g),
            List.mem_map_of_mem _ hg, ?_⟩
          by_cases hk : (g.1 == (i.sucursal.toLower, i.transaccion)) = true
          · rw [if_pos hk]
            exact List.mem_append_left _ hgi
          · rw [if_neg hk]
            exact hgi
        · simp only [if_neg hany]
          exact ⟨g, List.mem_append_left _ hg, hgi⟩
      · have : item = i := by
          rcases List.mem_cons.mp h with h2 | h2
          · exact h2
          · exact absurd h2 hit
        subst this
        by_cases hany : acc.any (fun g => g.1 == (item.sucursal.toLower, item.transaccion))
        · simp only [if_pos hany]
          obtain ⟨g₀, hg₀, hk⟩ := List.any_eq_true.mp hany
          refine ⟨(if g₀.1 == (item.sucursal.toLower, item.transaccion)
              then (g₀.1, g₀.2 ++ [item]) else g₀),
            List.mem_map_of_mem _ hg₀, ?_⟩
          rw [if_pos hk]
          exact List.mem_append_right _ (List.mem_singleton.mpr rfl)
        · simp only [if_neg hany]
          exact ⟨((item.sucursal.toLower, item.transaccion), [item]),
            List.mem_append_right _ (List.mem_singleton.mpr rfl),
            List.mem_singleton.mpr rfl⟩

/-- Helper: every item of every group comes from the payload. -/
theorem grouped_transactions_sound_aux :
    ∀ (payload : List PayloadItem) (acc : List ((String × String) × List PayloadItem))
      (g : (String × String) × List PayloadItem) (item : PayloadItem),
      g ∈ payload.foldl
          (fun acc item =>
            let key := (item.sucursal.toLower, item.transaccion)
            if acc.any (fun g => g.1 == key) then
              acc.map (fun g => if g.1 == key then (g.1, g.2 ++ [item]) else g)
            else acc ++ [(key, [item])])
          acc →
      item ∈ g.2 →
      (∃ g₀ ∈ acc, item ∈ g₀.2) ∨ item ∈ payload := by
  intro payload
  induction payload with
  | nil =>
    intro acc g item hg hitem
    exact Or.inl ⟨g, hg, hitem⟩
  | cons i rest ih =>
    intro acc g item hg hitem
    rcases ih _ g item hg hitem with hstep | hrest
    · obtain ⟨g₀, hg₀, hg₀i⟩ := hstep
      dsimp only at hg₀
      by_cases hany : acc.any (fun g => g.1 == (i.sucursal.toLower, i.transaccion))
      · rw [if_pos hany] at hg₀
        obtain ⟨g₁, hg₁, hge⟩ := List.mem_map.mp hg₀
        by_cases hk : (g₁.1 == (i.sucursal.toLower, i.transaccion)) = true
        · rw [if_pos hk] at hge
          subst hge
          rcases List.mem_append.mp hg₀i with h | h
          · exact Or.inl ⟨g₁, hg₁, h⟩
          · rw [List.mem_singleton] at h
            subst h
            exact Or.inr (List.mem_cons_self _ _)
        · rw [if_neg hk] at hge
          subst hge
          exact Or.inl ⟨g₁, hg₁, hg₀i⟩
      · rw [if_neg hany] at hg₀
        rcases List.mem_append.mp hg₀ with h | h
        · exact Or.inl ⟨g₀, h, hg₀i⟩
        · rw [List.mem_singleton] at h
          subst h
          rw [List.mem_singleton] at hg₀i
          subst hg₀i
          exact Or.inr (List.mem_cons_self _ _)
    · exact Or.inr (List.mem_cons_of_mem i hrest)

/-- C10 (amended): provided every payload item either carries a cost or
has non-positive quantity (otherwise product creation hits
`Decimal(None)` and the task aborts with nothing committed), bulk
ingestion never rejects the payload: it runs to the commit; every
referenced warehouse name has a row afterwards (created when the
case-insensitive lookup missed); every item either belongs to a group
skipped by the existing-(reference_code, warehouse) check — its key is
logged as skipped — or has a product row with its SKU and a transaction
detail attached to it; no Transaction rows are added for
(reference_code, warehouse) pairs that already existed; and every
TransactionDetail row added by the run is attached to a newly created
transaction whose (reference_code, warehouse) pair did not already
exist, so a skipped group creates no detail rows either. -/
theorem bulk_ingestion_creates_and_skips
    (ws : List Warehouse) (ps : List Product) (ts : List TransactionRow)
    (ds : List TransactionDetailRow) (nw np nt : Int)
    (payload : List PayloadItem)
    (hcost : ∀ item ∈ payload, item.costo.isSome = true ∨ ¬ 0 < item.cantidad) :
    ∃ st₂ skipped,
      process_bulk_transactions_task (init_bulk_state ws ps ts ds nw np nt) payload =
        .ok (st₂, skipped) ∧
      (∀ item ∈ payload, ∃ w ∈ st₂.warehouses, w.name.toLower = item.sucursal.toLower) ∧
      (∀ item ∈ payload, (item.sucursal.toLower, item.transaccion) ∈ skipped ∨
        ∃ p ∈ st₂.products, p.code = item.sku ∧ ∃ d ∈ st₂.details, d.product_id = p.id) ∧
      (∀ ref wid, (ref, wid) ∈ ts.map (fun t => (t.reference_code, t.warehouse_id)) →
        (st₂.transactions.filter
          (fun t => t.reference_code == ref && t.warehouse_id == wid)).length =
        (ts.filter (fun t => t.reference_code == ref && t.warehouse_id == wid)).length) ∧
      (∃ new_details, st₂.details = ds ++ new_details ∧
        ∀ d ∈ new_details, ∃ t ∈ st₂.transactions, t.id = d.transaction_id ∧
          (t.reference_code, t.warehouse_id) ∉
            ts.map (fun t => (t.reference_code, t.warehouse_id))) := by
  have hwf := grouped_transactions_wf_aux payload []
    (by intro g hg; exact absurd hg (List.not_mem_nil g))
  have hcost2 : ∀ g ∈ grouped_transactions payload, ∀ item ∈ g.2,
      item.costo.isSome = true ∨ ¬ 0 < item.cantidad := by
    intro g hg item hitem
    rcases grouped_transactions_sound_aux payload [] g item hg hitem with ⟨g₀, hg₀, _⟩ | h
    · exact absurd hg₀ (List.not_mem_nil g₀)
    · exact hcost item h
  obtain ⟨st₂, skd, heq, hinv₂, hw_app, hp_app, ⟨dd, hdd, hddnew⟩,
      ⟨dt, hdt, hdtpairs⟩, hex, hws, hor⟩ :=
    process_groups_fold_spec (grouped_transactions payload)
      (init_bulk_state ws ps ts ds nw np nt) [] (init_bulk_state_inv ws ps ts ds nw np nt)
      hwf hcost2
  refine ⟨st₂, skd, ?_, ?_, ?_, ?_, ?_⟩
  · show (grouped_transactions payload).foldlM process_group
        (init_bulk_state ws ps ts ds nw np nt, []) = _
    rw [heq, List.nil_append]
  · intro item hitem
    obtain ⟨g, hg, hgi⟩ := grouped_transactions_cover_aux payload [] item (Or.inr hitem)
    obtain ⟨w, hwmem, hwname⟩ := hws g hg
    have hk := (hwf g hg).2 item hgi
    exact ⟨w, hwmem, by rw [hwname, hk.1]⟩
  · intro item hitem
    obtain ⟨g, hg, hgi⟩ := grouped_transactions_cover_aux payload [] item (Or.inr hitem)
    have hk := (hwf g hg).2 item hgi
    have hkey : (item.sucursal.toLower, item.transaccion) = g.1 := by
      rw [hk.1, hk.2]
    rcases hor g hg with hskip | hprod
    · left
      rw [hkey]
      simpa using hskip
    · exact Or.inr (hprod item hgi)
  · intro ref wid hmem
    have htx : st₂.transactions = ts ++ dt := hdt
    rw [htx, List.filter_append, List.length_append]
    have hnil : (dt.filter (fun t => t.reference_code == ref && t.warehouse_id == wid)) = [] := by
      rw [List.filter_eq_nil_iff]
      intro t ht hpred
      have hp : t.reference_code = ref ∧ t.warehouse_id = wid := by
        simpa using hpred
      have hpair : (t.reference_code, t.warehouse_id) ∈
          ts.map (fun t => (t.reference_code, t.warehouse_id)) := by
        rw [hp.1, hp.2]
        exact hmem
      exact hdtpairs t ht hpair
    rw [hnil]
    simp
  · refine ⟨dd, hdd, ?_⟩
    intro d hd
    obtain ⟨t, ht, hid, hpair⟩ := hddnew d hd
    exact ⟨t, ht, hid, hpair⟩

/-- The concrete payload item of the C10 witness: unknown warehouse and
SKU, quantity 2, cost 10 present. -/
def c10_example_item : PayloadItem :=
  { sucursal := "W1", transaccion := "T1", sku := "S1", descripcion := "d",
    tipo := .venta, categoria := none, cantidad := 2, costo := some 10,
    fecha_movimiento := 0 }

/-- Witness for C10 on an empty tenant and one well-formed item. -/
theorem bulk_ingestion_creates_and_skips_witness :
    (∀ item ∈ [c10_example_item], item.costo.isSome = true ∨ ¬ 0 < item.cantidad) ∧
    (∃ st₂ skipped,
      process_bulk_transactions_task (init_bulk_state [] [] [] [] 1 1 1) [c10_example_item] =
        .ok (st₂, skipped) ∧
      (∀ item ∈ [c10_example_item],
        ∃ w ∈ st₂.warehouses, w.name.toLower = item.sucursal.toLower) ∧
      (∀ item ∈ [c10_example_item], (item.sucursal.toLower, item.transaccion) ∈ skipped ∨
        ∃ p ∈ st₂.products, p.code = item.sku ∧ ∃ d ∈ st₂.details, d.product_id = p.id) ∧
      (∀ ref wid, (ref, wid) ∈ ([] : List TransactionRow).map
          (fun t => (t.reference_code, t.warehouse_id)) →
        (st₂.transactions.filter
          (fun t => t.reference_code == ref && t.warehouse_id == wid)).length =
        (([] : List TransactionRow).filter
          (fun t => t.reference_code == ref && t.warehouse_id == wid)).length) ∧
      (∃ new_details, st₂.details = ([] : List TransactionDetailRow) ++ new_details ∧
        ∀ d ∈ new_details, ∃ t ∈ st₂.transactions, t.id = d.transaction_id ∧
          (t.reference_code, t.warehouse_id) ∉
            ([] : List TransactionRow).map
              (fun t => (t.reference_code, t.warehouse_id)))) :=
  ⟨by decide, bulk_ingestion_creates_and_skips [] [] [] [] 1 1 1 [c10_example_item] (by decide)⟩
